import Mathlib

/-!
# Verification of the BlindUNO game engine

A shallow embedding of the on-chain UNO game engine implemented in
`contracts/ConfidentialUnoGame.sol`, together with proofs about the
specification's claims.

Modelling conventions:
* Addresses are naturals (`Address := Nat`).
* Encrypted card handles (`euint256`) are modelled by the plaintext card
  identifiers they hold; encrypted lists (`elist`) are `List Nat`.
  ACL `inco.allow` calls, fee metering, event emission and timestamps are
  externally-provided collaborators (spec section 6) with no effect on the
  rule-engine state, so they are omitted.
* The per-game-id mappings of the contract (`games`, `playerHands`,
  `hasCalledUno`, `unoPenaltyApplied`, `unoWindowOpen`, `unoWindowPlayer`)
  are collapsed into a single `Game` record, since distinct game ids never
  interact.
* Solidity `require` failures revert the whole transaction; each external
  function is therefore embedded as a pure function returning
  `Except String Game`, the error carrying the `require` message and the
  state being discarded wholesale.
* The confidential shuffle `ePreview.shuffle` is an external randomness
  source; functions that may reshuffle take the shuffling function as an
  explicit parameter, and reachability theorems hypothesise that it
  permutes its input.
-/

namespace BlindUno

abbrev Address := Nat

/-! ## Constants (contract constants, lines 32-55 of the source) -/

def DECK_SIZE : Nat := 108
def INITIAL_HAND_SIZE : Nat := 7
def MAX_PLAYERS : Nat := 10

def NUMBER_CARDS_END : Nat := 76
def SKIP_START : Nat := 76
def SKIP_END : Nat := 84
def REVERSE_START : Nat := 84
def REVERSE_END : Nat := 92
def DRAW_TWO_START : Nat := 92
def DRAW_TWO_END : Nat := 100
def WILD_START : Nat := 100
def WILD_END : Nat := 104
def WILD_DRAW_FOUR_END : Nat := 108

def CARD_TYPE_NUMBER : Nat := 0
def CARD_TYPE_SKIP : Nat := 1
def CARD_TYPE_REVERSE : Nat := 2
def CARD_TYPE_DRAW_TWO : Nat := 3
def CARD_TYPE_WILD : Nat := 4
def CARD_TYPE_WILD_DRAW_FOUR : Nat := 5

/-! ## Card codec (`_getCardColor`, `_getCardType`, `_getCardValue`) -/

/-- Source `_getCardColor` (source lines 714-723): colour 0=Red 1=Yellow 2=Green
3=Blue, 4 = no colour (wilds). -/
def getCardColor (cardId : Nat) : Nat :=
  if cardId ≥ WILD_START then 4
  else if cardId < NUMBER_CARDS_END then cardId / 19
  else if cardId < SKIP_END then (cardId - SKIP_START) / 2
  else if cardId < REVERSE_END then (cardId - REVERSE_START) / 2
  else if cardId < DRAW_TWO_END then (cardId - DRAW_TWO_START) / 2
  else 4

/-- Source `_getCardType` (source lines 725-732). -/
def getCardType (cardId : Nat) : Nat :=
  if cardId < NUMBER_CARDS_END then CARD_TYPE_NUMBER
  else if cardId < SKIP_END then CARD_TYPE_SKIP
  else if cardId < REVERSE_END then CARD_TYPE_REVERSE
  else if cardId < DRAW_TWO_END then CARD_TYPE_DRAW_TWO
  else if cardId < WILD_END then CARD_TYPE_WILD
  else CARD_TYPE_WILD_DRAW_FOUR

/-- Source `_getCardValue` (source lines 734-740). -/
def getCardValue (cardId : Nat) : Nat :=
  if cardId ≥ NUMBER_CARDS_END then 0
  else
    let posInColor := cardId % 19
    if posInColor = 0 then 0
    else if posInColor ≤ 9 then posInColor
    else posInColor - 9

/-- Source `_isCardPlayableInternal` (source lines 481-507). -/
def isCardPlayableInternal (cardId topCardId : Nat) (currentColor : Nat) : Bool :=
  if cardId ≥ WILD_START then true
  else if getCardColor cardId = currentColor then true
  else
    let cardType := getCardType cardId
    let topType := getCardType topCardId
    if cardType = topType ∧ cardType ≠ CARD_TYPE_NUMBER then true
    else if cardType = CARD_TYPE_NUMBER ∧ topType = CARD_TYPE_NUMBER then
      getCardValue cardId = getCardValue topCardId
    else false

/-! ## Encrypted-list primitives (`ePreview`) -/

/-- Embedding of `ePreview.slice l a b`: the elements at positions `[a, b)`. -/
def eslice (l : List Nat) (a b : Nat) : List Nat :=
  (l.drop a).take (b - a)

/-- Embedding of `ePreview.getEuint256 l i`: the element at position `i` (in-range at
every use site of the contract; out-of-range defaults to 0 here). -/
def eget (l : List Nat) (i : Nat) : Nat :=
  l.getD i 0

/-- Source `_removeCardFromHand` (source lines 445-465): three-branch removal of
position `cardIndex` from a hand of length `handSize`. -/
def removeCardFromHand (currentHand : List Nat) (cardIndex handSize : Nat) : List Nat :=
  if cardIndex = 0 then
    eslice currentHand 1 handSize
  else if cardIndex = handSize - 1 then
    eslice currentHand 0 cardIndex
  else
    eslice currentHand 0 cardIndex ++ eslice currentHand (cardIndex + 1) handSize

/-! ## Game state -/

inductive GameStatus
  | NotStarted
  | Started
  | Ended
deriving DecidableEq

/-- The per-game state of the contract: the `Game` struct (source lines
59-77) together with the per-game mappings `playerHands`, `hasCalledUno`,
`unoPenaltyApplied`, `unoWindowOpen`, `unoWindowPlayer` (lines 80-90). -/
structure Game where
  id : Nat
  players : List Address
  status : GameStatus
  deck : List Nat
  moves : List Nat
  topCard : Nat
  topCardId : Nat
  deckIndex : Nat
  currentPlayerIndex : Nat
  direction : Int
  currentColor : Nat
  winner : Address
  pendingDraws : Nat
  skipNextPlayer : Bool
  hands : Address → List Nat
  hasCalledUno : Address → Bool
  unoPenaltyApplied : Address → Bool
  unoWindowOpen : Bool
  unoWindowPlayer : Address

/-- The all-defaults game value (Solidity storage defaults). -/
def emptyGame : Game where
  id := 0
  players := []
  status := .NotStarted
  deck := []
  moves := []
  topCard := 0
  topCardId := 0
  deckIndex := 0
  currentPlayerIndex := 0
  direction := 1
  currentColor := 0
  winner := 0
  pendingDraws := 0
  skipNextPlayer := false
  hands := fun _ => []
  hasCalledUno := fun _ => false
  unoPenaltyApplied := fun _ => false
  unoWindowOpen := false
  unoWindowPlayer := 0

/-! ## Internal helpers of the contract -/

/-- The UNO-window closing prologue of `commitMove` (source lines 294-305):
close the window if it was open for a different player, then close it if
the opener is the one now playing. -/
def closeWindowCommit (g : Game) (sender : Address) : Game :=
  let g1 :=
    if g.unoWindowOpen ∧ g.unoWindowPlayer ≠ sender then
      { g with unoWindowOpen := false }
    else g
  if g1.unoWindowOpen ∧ g1.unoWindowPlayer = sender then
    { g1 with unoWindowOpen := false }
  else g1

/-- The UNO-window closing step of `drawCard` (source lines 673-682):
same two cases, subject first. -/
def closeWindowDraw (g : Game) (sender : Address) : Game :=
  let g1 :=
    if g.unoWindowOpen ∧ g.unoWindowPlayer = sender then
      { g with unoWindowOpen := false }
    else g
  if g1.unoWindowOpen ∧ g1.unoWindowPlayer ≠ sender then
    { g1 with unoWindowOpen := false }
  else g1

/-- Lines 340-349 of `commitMove`: open the challenge window on a 2-to-1
hand-size transition by a player who has not called UNO. -/
def maybeOpenWindow (g : Game) (sender : Address) (handSize newHandSize : Nat) : Game :=
  if handSize = 2 ∧ newHandSize = 1 ∧ ¬ g.hasCalledUno sender then
    { g with unoWindowOpen := true, unoWindowPlayer := sender }
  else g

/-- Source `_applyCardEffect` (source lines 512-530). -/
def applyCardEffect (g : Game) (cardType : Nat) : Game :=
  if cardType = CARD_TYPE_SKIP then
    { g with skipNextPlayer := true }
  else if cardType = CARD_TYPE_REVERSE then
    let g1 := { g with direction := -g.direction }
    if g1.players.length = 2 then { g1 with skipNextPlayer := true } else g1
  else if cardType = CARD_TYPE_DRAW_TWO then
    { g with pendingDraws := 2, skipNextPlayer := true }
  else if cardType = CARD_TYPE_WILD_DRAW_FOUR then
    { g with pendingDraws := 4, skipNextPlayer := true }
  else g

/-- One step of the player-index rotation in `_advanceToNextPlayer`
(source lines 540-548 and 562-570). -/
def stepIndex (idx : Nat) (direction : Int) (numPlayers : Nat) : Nat :=
  if direction = 1 then (idx + 1) % numPlayers
  else if idx = 0 then numPlayers - 1
  else idx - 1

/-- Source `_reshuffleFromDiscards` (source lines 580-614); `σ` stands for the
confidential `ePreview.shuffle` randomness source. -/
def reshuffleFromDiscards (σ : List Nat → List Nat) (g : Game) : Except String Game :=
  let movesCount := g.moves.length
  if ¬ movesCount ≥ 2 then .error "No cards left to reshuffle"
  else
    let cardsToShuffle := eslice g.moves 0 (movesCount - 1)
    let newDeck := σ cardsToShuffle
    let newMoves := [g.topCard]
    .ok { g with deck := newDeck, deckIndex := 0, moves := newMoves }

/-- One iteration of the `_forceDrawCards` loop body (source lines
622-647): reshuffle if the draw pile is exhausted, then move the card at
the cursor into `player`'s hand. -/
def drawOneInto (σ : List Nat → List Nat) (g : Game) (player : Address) :
    Except String Game := do
  let g ← if g.deckIndex ≥ g.deck.length then reshuffleFromDiscards σ g else .ok g
  let drawnCard := eget g.deck g.deckIndex
  .ok { g with
        deckIndex := g.deckIndex + 1,
        hands := Function.update g.hands player (g.hands player ++ [drawnCard]) }

/-- Source `_forceDrawCards` (source lines 619-654): draw `numCards` cards into
`player`'s hand, then reset that player's UNO flags. -/
def forceDrawCards (σ : List Nat → List Nat) (g : Game) (player : Address) :
    Nat → Except String Game
  | 0 => .ok { g with
      hasCalledUno := Function.update g.hasCalledUno player false,
      unoPenaltyApplied := Function.update g.unoPenaltyApplied player false }
  | numCards + 1 => do
      let g1 ← drawOneInto σ g player
      forceDrawCards σ g1 player numCards

/-- Source `_advanceToNextPlayer` (source lines 535-574). -/
def advanceToNextPlayer (σ : List Nat → List Nat) (g : Game) : Except String Game :=
  let numPlayers := g.players.length
  let idx1 := stepIndex g.currentPlayerIndex g.direction numPlayers
  if g.skipNextPlayer then do
    let skippedPlayer := g.players.getD idx1 0
    let g1 := { g with currentPlayerIndex := idx1, skipNextPlayer := false }
    let g2 ←
      if g1.pendingDraws > 0 then
        (forceDrawCards σ g1 skippedPlayer g1.pendingDraws).map
          (fun h => { h with pendingDraws := 0 })
      else .ok g1
    .ok { g2 with currentPlayerIndex := stepIndex g2.currentPlayerIndex g2.direction numPlayers }
  else
    .ok { g with currentPlayerIndex := idx1 }

/-! ## Public action surface -/

/-- Source `createGame` (source lines 141-202).  The shuffled deck produced by
`ePreview.shuffledRange(0, 108)` is passed in as `shuffledDeck`; fee
checks and ACL grants are external.  Deals 7 cards to the creator and
takes the next deck card as the (encrypted) table card, while the public
`topCardId` is the caller-supplied plaintext claim. -/
def createGame (creator : Address) (initialTopCardId : Nat) (shuffledDeck : List Nat) :
    Except String Game :=
  if ¬ initialTopCardId < DECK_SIZE then .error "Invalid initial card ID"
  else
    let hand := eslice shuffledDeck 0 INITIAL_HAND_SIZE
    let deckPos := INITIAL_HAND_SIZE
    let topCard := eget shuffledDeck deckPos
    .ok { emptyGame with
      id := 1
      players := [creator]
      status := .NotStarted
      deck := shuffledDeck
      moves := []
      deckIndex := deckPos + 1
      direction := 1
      topCard := topCard
      topCardId := initialTopCardId
      currentColor :=
        if initialTopCardId ≥ WILD_START then 0 else getCardColor initialTopCardId
      hands := Function.update (fun _ => []) creator hand }

/-- Source `joinGame` (source lines 207-232). -/
def joinGame (g : Game) (joinee : Address) : Except String Game :=
  if g.status ≠ .NotStarted then .error "Game is not in the required status"
  else if ¬ g.players.length < MAX_PLAYERS then .error "Game is full"
  else if joinee ∈ g.players then .error "Already in game"
  else if ¬ g.deckIndex + INITIAL_HAND_SIZE < DECK_SIZE then .error "Not enough cards"
  else
    let hand := eslice g.deck g.deckIndex (g.deckIndex + INITIAL_HAND_SIZE)
    .ok { g with
      players := g.players ++ [joinee]
      deckIndex := g.deckIndex + INITIAL_HAND_SIZE
      hands := Function.update g.hands joinee hand }

/-- Source `startGame` (source lines 237-253). -/
def startGame (g : Game) : Except String Game :=
  if g.status ≠ .NotStarted then .error "Game is not in the required status"
  else if ¬ g.players.length ≥ 2 then .error "Need at least 2 players"
  else .ok { g with status := .Started }

/-- The state updates of `commitMove` after all `require` checks passed
(source lines 316-378): remove the card, window bookkeeping, flag resets,
top-card / colour / history updates, special-card effect. -/
def commitMoveCore (g : Game) (sender : Address)
    (cardIndex revealedCardId chosenColor : Nat) : Game :=
  let currentHand := g.hands sender
  let handSize := currentHand.length
  let cardType := getCardType revealedCardId
  let playedCard := eget currentHand cardIndex
  let newHand :=
    if handSize = 1 then [] else removeCardFromHand currentHand cardIndex handSize
  let g1 := { g with hands := Function.update g.hands sender newHand }
  let g2 := maybeOpenWindow g1 sender handSize newHand.length
  let g3 := { g2 with
    hasCalledUno := Function.update g2.hasCalledUno sender false
    unoPenaltyApplied := Function.update g2.unoPenaltyApplied sender false
    topCard := playedCard
    topCardId := revealedCardId
    currentColor :=
      if cardType = CARD_TYPE_WILD ∨ cardType = CARD_TYPE_WILD_DRAW_FOUR then
        chosenColor
      else getCardColor revealedCardId
    moves := g2.moves ++ [playedCard] }
  applyCardEffect g3 cardType

/-- Source `commitMove` (source lines 281-402). -/
def commitMove (σ : List Nat → List Nat) (g : Game) (sender : Address)
    (cardIndex revealedCardId chosenColor : Nat) : Except String Game :=
  if g.status ≠ .Started then .error "Game is not in the required status"
  else if sender ∉ g.players then .error "Not a player in this game"
  else if g.players.getD g.currentPlayerIndex 0 ≠ sender then .error "Not your turn"
  else if ¬ chosenColor ≤ 3 then .error "Invalid color"
  else if ¬ revealedCardId < DECK_SIZE then .error "Invalid card ID"
  else
    let g1 := closeWindowCommit g sender
    if ¬ cardIndex < (g1.hands sender).length then .error "Card index out of bounds"
    else if ¬ isCardPlayableInternal revealedCardId g1.topCardId g1.currentColor then
      .error "Card not playable"
    else
      let g2 := commitMoveCore g1 sender cardIndex revealedCardId chosenColor
      if (g2.hands sender).length = 0 then
        .ok { g2 with status := .Ended, winner := sender }
      else
        advanceToNextPlayer σ g2

/-- Source `callUno` (source lines 407-413). -/
def callUno (g : Game) (sender : Address) : Except String Game :=
  if g.status ≠ .Started then .error "Game is not in the required status"
  else if sender ∉ g.players then .error "Not a player in this game"
  else if (g.hands sender).length ≠ 2 then .error "Must have exactly 2 cards to call UNO"
  else .ok { g with hasCalledUno := Function.update g.hasCalledUno sender true }

/-- Source `penalizeUno` (source lines 419-440). -/
def penalizeUno (σ : List Nat → List Nat) (g : Game) (sender target : Address) :
    Except String Game :=
  if g.status ≠ .Started then .error "Game is not in the required status"
  else if sender ∉ g.players then .error "Not a player in this game"
  else if sender = target then .error "Cannot penalize yourself"
  else if ¬ g.unoWindowOpen then .error "Challenge window not open"
  else if g.unoWindowPlayer ≠ target then .error "Target not in challenge window"
  else if g.unoPenaltyApplied target then .error "Penalty already applied"
  else
    let g1 := { g with
      unoWindowOpen := false
      unoPenaltyApplied := Function.update g.unoPenaltyApplied target true }
    forceDrawCards σ g1 target 2

/-- Source `drawCard` (source lines 659-710). -/
def drawCard (σ : List Nat → List Nat) (g : Game) (sender : Address) (endTurn : Bool) :
    Except String Game :=
  if g.status ≠ .Started then .error "Game is not in the required status"
  else if sender ∉ g.players then .error "Not a player in this game"
  else if g.players.getD g.currentPlayerIndex 0 ≠ sender then .error "Not your turn"
  else do
    let g1 ← if g.deckIndex ≥ g.deck.length then reshuffleFromDiscards σ g else .ok g
    let g2 := closeWindowDraw g1 sender
    let drawnCard := eget g2.deck g2.deckIndex
    let g3 := { g2 with
      deckIndex := g2.deckIndex + 1
      hands := Function.update g2.hands sender (g2.hands sender ++ [drawnCard]) }
    if endTurn then advanceToNextPlayer σ g3 else .ok g3

/-! ## The card ledger and reachable states -/

/-- The multiset of cards held in the hands of the registered players. -/
def handsLedger (g : Game) : Multiset Nat :=
  (g.players.map (fun p => ((g.hands p : List Nat) : Multiset Nat))).sum

/-- The multiset of cards still in the draw pile (deck positions from
`deckIndex` onward). -/
def deckRemaining (g : Game) : Multiset Nat :=
  ((g.deck.drop g.deckIndex : List Nat) : Multiset Nat)

/-- The multiset of cards in the `moves` history list. -/
def movesLedger (g : Game) : Multiset Nat :=
  ((g.moves : List Nat) : Multiset Nat)

/-- Hands plus draw pile plus move history. -/
def coreLedger (g : Game) : Multiset Nat :=
  handsLedger g + deckRemaining g + movesLedger g

/-- The union the specification's partition invariant speaks about: all
hands, the remaining draw pile, and the discard pile read as the moves
list together with the current top card. -/
def claimLedger (g : Game) : Multiset Nat :=
  coreLedger g + {g.topCard}

/-- The 108 canonical card identifiers. -/
def canonical108 : Multiset Nat :=
  ((List.range DECK_SIZE : List Nat) : Multiset Nat)

/-- States reachable through the public action surface, for a shuffle
source `σ`.  The first index records the card dealt face-up to the table
at creation (deck position 7), which the ledger theorems track. -/
inductive Reach (σ : List Nat → List Nat) : Nat → Game → Prop
  | create {creator initialTopCardId : Nat} {d : List Nat} {g : Game} :
      d.Perm (List.range DECK_SIZE) →
      createGame creator initialTopCardId d = .ok g →
      Reach σ (eget d INITIAL_HAND_SIZE) g
  | join {x : Nat} {g g' : Game} {p : Address} :
      Reach σ x g → joinGame g p = .ok g' → Reach σ x g'
  | start {x : Nat} {g g' : Game} :
      Reach σ x g → startGame g = .ok g' → Reach σ x g'
  | commit {x : Nat} {g g' : Game} {s : Address} {ci rid col : Nat} :
      Reach σ x g → commitMove σ g s ci rid col = .ok g' → Reach σ x g'
  | draw {x : Nat} {g g' : Game} {s : Address} {et : Bool} :
      Reach σ x g → drawCard σ g s et = .ok g' → Reach σ x g'
  | uno {x : Nat} {g g' : Game} {s : Address} :
      Reach σ x g → callUno g s = .ok g' → Reach σ x g'
  | penalize {x : Nat} {g g' : Game} {s t : Address} :
      Reach σ x g → penalizeUno σ g s t = .ok g' → Reach σ x g'

/-! ## Helper lemmas about the internal steps -/

theorem closeWindowCommit_eq (g : Game) (s : Address) :
    closeWindowCommit g s = { g with unoWindowOpen := false } := by
  unfold closeWindowCommit
  by_cases h1 : g.unoWindowOpen ∧ g.unoWindowPlayer ≠ s
  · simp only [if_pos h1]
    simp
  · simp only [if_neg h1]
    by_cases h2 : g.unoWindowOpen ∧ g.unoWindowPlayer = s
    · simp only [if_pos h2]
    · simp only [if_neg h2]
      have hopen : g.unoWindowOpen = false := by
        by_contra ho
        have ho' : g.unoWindowOpen = true := by simpa using ho
        rcases Decidable.em (g.unoWindowPlayer = s) with he | hne
        · exact h2 ⟨ho', he⟩
        · exact h1 ⟨ho', hne⟩
      cases g
      simp_all

theorem closeWindowDraw_eq (g : Game) (s : Address) :
    closeWindowDraw g s = { g with unoWindowOpen := false } := by
  unfold closeWindowDraw
  by_cases h1 : g.unoWindowOpen ∧ g.unoWindowPlayer = s
  · simp only [if_pos h1]
    simp
  · simp only [if_neg h1]
    by_cases h2 : g.unoWindowOpen ∧ g.unoWindowPlayer ≠ s
    · simp only [if_pos h2]
    · simp only [if_neg h2]
      have hopen : g.unoWindowOpen = false := by
        by_contra ho
        have ho' : g.unoWindowOpen = true := by simpa using ho
        rcases Decidable.em (g.unoWindowPlayer = s) with he | hne
        · exact h1 ⟨ho', he⟩
        · exact h2 ⟨ho', hne⟩
      cases g
      simp_all

theorem maybeOpenWindow_eq (g : Game) (s : Address) (hs ns : Nat) :
    maybeOpenWindow g s hs ns =
      { g with
        unoWindowOpen :=
          if hs = 2 ∧ ns = 1 ∧ ¬ g.hasCalledUno s then true else g.unoWindowOpen
        unoWindowPlayer :=
          if hs = 2 ∧ ns = 1 ∧ ¬ g.hasCalledUno s then s else g.unoWindowPlayer } := by
  unfold maybeOpenWindow
  split
  · simp
  · cases g
    simp

theorem applyCardEffect_eq (g : Game) (ct : Nat) :
    applyCardEffect g ct =
      { g with
        direction := if ct = CARD_TYPE_REVERSE then -g.direction else g.direction
        pendingDraws :=
          if ct = CARD_TYPE_DRAW_TWO then 2
          else if ct = CARD_TYPE_WILD_DRAW_FOUR then 4
          else g.pendingDraws
        skipNextPlayer :=
          if ct = CARD_TYPE_SKIP then true
          else if ct = CARD_TYPE_REVERSE ∧ g.players.length = 2 then true
          else if ct = CARD_TYPE_DRAW_TWO then true
          else if ct = CARD_TYPE_WILD_DRAW_FOUR then true
          else g.skipNextPlayer } := by
  unfold applyCardEffect
  rcases Decidable.em (ct = CARD_TYPE_SKIP) with h1 | h1 <;>
    rcases Decidable.em (ct = CARD_TYPE_REVERSE) with h2 | h2 <;>
    rcases Decidable.em (ct = CARD_TYPE_DRAW_TWO) with h3 | h3 <;>
    rcases Decidable.em (ct = CARD_TYPE_WILD_DRAW_FOUR) with h4 | h4 <;>
    simp_all [CARD_TYPE_SKIP, CARD_TYPE_REVERSE, CARD_TYPE_DRAW_TWO,
      CARD_TYPE_WILD_DRAW_FOUR] <;>
    (try cases g) <;>
    (try split) <;>
    simp_all

theorem stepIndex_lt {i n : Nat} (d : Int) (hi : i < n) :
    stepIndex i d n < n := by
  unfold stepIndex
  split
  · exact Nat.mod_lt _ (Nat.lt_of_le_of_lt (Nat.zero_le i) hi)
  · split
    · omega
    · omega

theorem stepIndex_ne {i n : Nat} (d : Int) (hi : i < n) (hn : 2 ≤ n) :
    stepIndex i d n ≠ i := by
  unfold stepIndex
  split
  · intro h
    rcases Nat.lt_or_ge (i + 1) n with hlt | hge
    · rw [Nat.mod_eq_of_lt hlt] at h
      omega
    · have : i + 1 = n := by omega
      rw [this, Nat.mod_self] at h
      omega
  · split <;> omega

/-! ## List / multiset bookkeeping lemmas -/

theorem coe_append (l l' : List Nat) :
    ((l ++ l' : List Nat) : Multiset Nat) = (l : Multiset Nat) + (l' : Multiset Nat) :=
  Multiset.coe_add l l'

/-- Splitting a list at an in-range position, as multisets. -/
theorem coe_split_at (l : List Nat) (n : Nat) (h : n < l.length) :
    (l : Multiset Nat) =
      (l.take n : Multiset Nat) + {eget l n} + (l.drop (n + 1) : Multiset Nat) := by
  conv_lhs => rw [← List.take_append_drop n l]
  rw [coe_append, List.drop_eq_getElem_cons h]
  have : eget l n = l[n] := List.getD_eq_getElem l 0 h
  rw [this]
  simp [add_assoc]

/-- Removing an in-range position, as multisets. -/
theorem coe_eraseIdx (l : List Nat) (n : Nat) (h : n < l.length) :
    (l : Multiset Nat) = (l.eraseIdx n : Multiset Nat) + {eget l n} := by
  rw [coe_split_at l n h, List.eraseIdx_eq_take_drop_succ, coe_append]
  abel

/-- The three-branch `_removeCardFromHand` computes exactly ordered
deletion at the given index. -/
theorem removeCardFromHand_eraseIdx (hand : List Nat) (ci : Nat)
    (h : ci < hand.length) :
    removeCardFromHand hand ci hand.length = hand.eraseIdx ci := by
  unfold removeCardFromHand eslice
  rcases Decidable.em (ci = 0) with h0 | h0
  · subst h0
    simp only [if_pos rfl]
    rw [List.eraseIdx_eq_take_drop_succ]
    have hlen : (hand.drop 1).length = hand.length - 1 := by simp
    rw [List.take_of_length_le (le_of_eq hlen)]
    simp
  · simp only [if_neg h0]
    rcases Decidable.em (ci = hand.length - 1) with hl | hl
    · simp only [if_pos hl]
      rw [List.eraseIdx_eq_take_drop_succ]
      have : hand.drop (ci + 1) = [] := by
        apply List.drop_eq_nil_of_le
        omega
      simp [this]
    · simp only [if_neg hl]
      rw [List.eraseIdx_eq_take_drop_succ]
      have hlen : (hand.drop (ci + 1)).length = hand.length - (ci + 1) := by simp
      rw [List.take_of_length_le (le_of_eq hlen)]
      simp

/-- The hands part of the ledger, as a function of the player list and
the hand assignment. -/
def handsSum (ps : List Address) (h : Address → List Nat) : Multiset Nat :=
  (ps.map (fun q => ((h q : List Nat) : Multiset Nat))).sum

theorem handsLedger_eq (g : Game) : handsLedger g = handsSum g.players g.hands := rfl

theorem handsSum_congr (ps : List Address) (h h' : Address → List Nat)
    (hc : ∀ q ∈ ps, h q = h' q) : handsSum ps h = handsSum ps h' := by
  unfold handsSum
  rw [List.map_congr_left (fun q hq => by rw [hc q hq])]

theorem handsSum_append (ps : List Address) (q : Address) (h : Address → List Nat) :
    handsSum (ps ++ [q]) h = handsSum ps h + (h q : Multiset Nat) := by
  unfold handsSum
  simp

/-- Updating the hand of a player occurring exactly once swaps that
player's contribution in the hands ledger. -/
theorem handsSum_update (ps : List Address) (h : Address → List Nat) (p : Address)
    (v : List Nat) (hp : p ∈ ps) (nd : ps.Nodup) :
    handsSum ps (Function.update h p v) + (h p : Multiset Nat)
      = handsSum ps h + (v : Multiset Nat) := by
  induction ps with
  | nil => cases hp
  | cons a t ih =>
    rcases List.mem_cons.mp hp with rfl | hpt
    · have hnt : p ∉ t := (List.nodup_cons.mp nd).1
      have htail : handsSum t (Function.update h p v) = handsSum t h := by
        refine handsSum_congr t _ h (fun q hq => ?_)
        have hqp : q ≠ p := by
          intro e
          subst e
          exact hnt hq
        exact Function.update_noteq hqp v h
      unfold handsSum at htail ⊢
      simp only [List.map_cons, List.sum_cons, Function.update_same]
      rw [htail]
      abel
    · have hap : a ≠ p := by
        intro e
        exact (List.nodup_cons.mp nd).1 (e ▸ hpt)
      have hstep := ih hpt (List.nodup_cons.mp nd).2
      unfold handsSum at hstep ⊢
      simp only [List.map_cons, List.sum_cons, Function.update_noteq hap]
      calc (h a : Multiset Nat) + (t.map (fun q => ((Function.update h p v q : List Nat) : Multiset Nat))).sum + (h p : Multiset Nat)
          = (h a : Multiset Nat) + ((t.map (fun q => ((Function.update h p v q : List Nat) : Multiset Nat))).sum + (h p : Multiset Nat)) := by abel
        _ = (h a : Multiset Nat) + ((t.map (fun q => ((h q : List Nat) : Multiset Nat))).sum + (v : Multiset Nat)) := by rw [hstep]
        _ = (h a : Multiset Nat) + (t.map (fun q => ((h q : List Nat) : Multiset Nat))).sum + (v : Multiset Nat) := by abel

/-- The inductive invariant carried through every reachable state: the
player list has no duplicates, the turn index is in range, the cards in
hands, remaining draw pile and move history together with the face-up
card `x` dealt at creation are exactly the 108 canonical ids, the
`topCard` field mirrors the last entry of the move history, and an open
challenge window always points at a registered player. -/
structure Inv (x : Nat) (g : Game) : Prop where
  nodup : g.players.Nodup
  cpi_lt : g.currentPlayerIndex < g.players.length
  ledger : coreLedger g + {x} = canonical108
  top_last : g.moves ≠ [] → g.moves.getLast? = some g.topCard
  window_mem : g.unoWindowOpen = true → g.unoWindowPlayer ∈ g.players

/-- The card removal performed by `commitMove` (empty-hand special case
plus the three-branch helper) is ordered deletion at `cardIndex`. -/
theorem commitNewHand_eraseIdx (hand : List Nat) (ci : Nat) (h : ci < hand.length) :
    (if hand.length = 1 then [] else removeCardFromHand hand ci hand.length)
      = hand.eraseIdx ci := by
  split
  · next h1 =>
    have hci : ci = 0 := by omega
    subst hci
    match hand, h1 with
    | [a], _ => rfl
  · exact removeCardFromHand_eraseIdx hand ci h

theorem reshuffle_ok {σ : List Nat → List Nat} {g g' : Game}
    (h : reshuffleFromDiscards σ g = .ok g') :
    2 ≤ g.moves.length ∧
    g' = { g with deck := σ (eslice g.moves 0 (g.moves.length - 1)),
                  deckIndex := 0, moves := [g.topCard] } := by
  unfold reshuffleFromDiscards at h
  simp only [] at h
  split at h
  · cases h
  · next hcond =>
    refine ⟨by omega, ?_⟩
    cases h
    rfl

/-- Reshuffling `_reshuffleFromDiscards` preserves the invariant when the draw pile
is exhausted (the only situation in which the contract invokes it). -/
theorem reshuffle_inv {σ : List Nat → List Nat} {x : Nat} {g g' : Game}
    (hσ : ∀ l, (σ l).Perm l) (inv : Inv x g) (hex : g.deck.length ≤ g.deckIndex)
    (h : reshuffleFromDiscards σ g = .ok g') :
    Inv x g' ∧ g'.players = g.players ∧ g'.hands = g.hands ∧ g'.status = g.status ∧
    g'.currentPlayerIndex = g.currentPlayerIndex ∧ g'.direction = g.direction ∧
    g'.skipNextPlayer = g.skipNextPlayer ∧ g'.pendingDraws = g.pendingDraws ∧
    g'.unoWindowOpen = g.unoWindowOpen ∧ g'.unoWindowPlayer = g.unoWindowPlayer ∧
    g'.hasCalledUno = g.hasCalledUno ∧ g'.unoPenaltyApplied = g.unoPenaltyApplied ∧
    g'.topCard = g.topCard ∧ g'.deckIndex < g'.deck.length := by
  obtain ⟨hlen, rfl⟩ := reshuffle_ok h
  have hmne : g.moves ≠ [] := by
    intro e
    rw [e] at hlen
    simp at hlen
  have htop : g.moves.getLast hmne = g.topCard := by
    have h1 := inv.top_last hmne
    rw [List.getLast?_eq_getLast g.moves hmne] at h1
    exact Option.some.inj h1
  have hsplit : (g.moves : Multiset Nat)
      = (g.moves.take (g.moves.length - 1) : Multiset Nat) + {g.topCard} := by
    conv_lhs => rw [← List.dropLast_append_getLast hmne]
    rw [coe_append, htop, List.dropLast_eq_take]
    simp
  have hslice : eslice g.moves 0 (g.moves.length - 1)
      = g.moves.take (g.moves.length - 1) := by
    unfold eslice
    simp
  have hledger : coreLedger
      { g with deck := σ (eslice g.moves 0 (g.moves.length - 1)),
               deckIndex := 0, moves := [g.topCard] } = coreLedger g := by
    unfold coreLedger handsLedger deckRemaining movesLedger
    simp only [List.drop_zero]
    rw [hslice]
    have hperm : ((σ (g.moves.take (g.moves.length - 1)) : List Nat) : Multiset Nat)
        = (g.moves.take (g.moves.length - 1) : Multiset Nat) :=
      Multiset.coe_eq_coe.mpr (hσ _)
    rw [hperm]
    have hdrop : (g.deck.drop g.deckIndex : List Nat) = [] :=
      List.drop_eq_nil_of_le hex
    rw [hdrop]
    conv_rhs => rw [hsplit]
    simp
    abel
  refine ⟨⟨inv.nodup, inv.cpi_lt, ?_, ?_, inv.window_mem⟩,
    rfl, rfl, rfl, rfl, rfl, rfl, rfl, rfl, rfl, rfl, rfl, rfl, ?_⟩
  · rw [hledger]
    exact inv.ledger
  · intro _
    simp
  · show 0 < (σ (eslice g.moves 0 (g.moves.length - 1))).length
    rw [(hσ _).length_eq, hslice, List.length_take]
    omega

/-- The turn-engine fields and identity data preserved by forced draws. -/
structure SideFrame (g g' : Game) : Prop where
  players : g'.players = g.players
  status : g'.status = g.status
  cpi : g'.currentPlayerIndex = g.currentPlayerIndex
  direction : g'.direction = g.direction
  skip : g'.skipNextPlayer = g.skipNextPlayer
  pending : g'.pendingDraws = g.pendingDraws
  wopen : g'.unoWindowOpen = g.unoWindowOpen
  wplayer : g'.unoWindowPlayer = g.unoWindowPlayer

theorem SideFrame.refl (g : Game) : SideFrame g g :=
  ⟨rfl, rfl, rfl, rfl, rfl, rfl, rfl, rfl⟩

theorem SideFrame.comp {g g' g'' : Game} (a : SideFrame g g') (b : SideFrame g' g'') :
    SideFrame g g'' :=
  ⟨a.players ▸ b.players, a.status ▸ b.status, a.cpi ▸ b.cpi, a.direction ▸ b.direction,
   a.skip ▸ b.skip, a.pending ▸ b.pending, a.wopen ▸ b.wopen, a.wplayer ▸ b.wplayer⟩

/-- Moving the card at the cursor into a registered player's hand
preserves the invariant. -/
theorem draw_step_inv {x : Nat} {g : Game} {p : Address} (inv : Inv x g)
    (hp : p ∈ g.players) (hlt : g.deckIndex < g.deck.length) :
    Inv x { g with
            deckIndex := g.deckIndex + 1,
            hands := Function.update g.hands p (g.hands p ++ [eget g.deck g.deckIndex]) } := by
  set c := eget g.deck g.deckIndex with hc
  have hdropc : (g.deck.drop g.deckIndex : Multiset Nat)
      = {c} + ((g.deck.drop (g.deckIndex + 1) : List Nat) : Multiset Nat) := by
    rw [List.drop_eq_getElem_cons hlt]
    have he : c = g.deck[g.deckIndex] := List.getD_eq_getElem g.deck 0 hlt
    rw [he]
    simp
  have hupd := handsSum_update g.players g.hands p (g.hands p ++ [c]) hp inv.nodup
  have hledger : coreLedger { g with
      deckIndex := g.deckIndex + 1,
      hands := Function.update g.hands p (g.hands p ++ [c]) } = coreLedger g := by
    have key : coreLedger { g with
        deckIndex := g.deckIndex + 1,
        hands := Function.update g.hands p (g.hands p ++ [c]) }
          + (g.hands p : Multiset Nat)
        = coreLedger g + (g.hands p : Multiset Nat) := by
      unfold coreLedger handsLedger deckRemaining movesLedger
      show handsSum g.players (Function.update g.hands p (g.hands p ++ [c]))
            + ((g.deck.drop (g.deckIndex + 1) : List Nat) : Multiset Nat)
            + (g.moves : Multiset Nat) + (g.hands p : Multiset Nat)
          = handsSum g.players g.hands + ((g.deck.drop g.deckIndex : List Nat) : Multiset Nat)
            + (g.moves : Multiset Nat) + (g.hands p : Multiset Nat)
      rw [hdropc]
      calc handsSum g.players (Function.update g.hands p (g.hands p ++ [c]))
            + ((g.deck.drop (g.deckIndex + 1) : List Nat) : Multiset Nat)
            + (g.moves : Multiset Nat) + (g.hands p : Multiset Nat)
          = handsSum g.players (Function.update g.hands p (g.hands p ++ [c]))
              + (g.hands p : Multiset Nat)
              + ((g.deck.drop (g.deckIndex + 1) : List Nat) : Multiset Nat)
              + (g.moves : Multiset Nat) := by abel
        _ = handsSum g.players g.hands + ((g.hands p ++ [c] : List Nat) : Multiset Nat)
              + ((g.deck.drop (g.deckIndex + 1) : List Nat) : Multiset Nat)
              + (g.moves : Multiset Nat) := by rw [hupd]
        _ = handsSum g.players g.hands
              + ({c} + ((g.deck.drop (g.deckIndex + 1) : List Nat) : Multiset Nat))
              + (g.moves : Multiset Nat) + (g.hands p : Multiset Nat) := by
            rw [coe_append]
            have hc1 : ((([c] : List Nat)) : Multiset Nat) = {c} := Multiset.coe_singleton c
            rw [hc1]
            abel
    exact add_right_cancel key
  exact ⟨inv.nodup, inv.cpi_lt, by rw [hledger]; exact inv.ledger,
    inv.top_last, inv.window_mem⟩

/-- One `_forceDrawCards` loop iteration preserves the invariant and the
turn-engine frame. -/
theorem drawOne_inv {σ : List Nat → List Nat} {x : Nat} {g g' : Game} {p : Address}
    (hσ : ∀ l, (σ l).Perm l) (inv : Inv x g) (hp : p ∈ g.players)
    (h : drawOneInto σ g p = .ok g') :
    Inv x g' ∧ SideFrame g g' := by
  unfold drawOneInto at h
  rcases Decidable.em (g.deckIndex ≥ g.deck.length) with hex | hex
  · rw [if_pos hex] at h
    cases hr : reshuffleFromDiscards σ g with
    | error e =>
      rw [hr] at h
      cases h
    | ok gm =>
      rw [hr] at h
      simp only [Except.bind, bind, Except.instMonad] at h
      obtain ⟨invm, hpl, hh, hst, hcpi, hdir, hskip, hpend, hwo, hwp, hcu, hpa, htc, hlt⟩ :=
        reshuffle_inv hσ inv hex hr
      cases h
      have hpm : p ∈ gm.players := by rw [hpl]; exact hp
      have step := draw_step_inv invm hpm hlt
      exact ⟨step, ⟨by simpa using hpl, by simpa using hst, by simpa using hcpi,
        by simpa using hdir, by simpa using hskip, by simpa using hpend,
        by simpa using hwo, by simpa using hwp⟩⟩
  · rw [if_neg hex] at h
    simp only [Except.bind, bind] at h
    cases h
    have hlt : g.deckIndex < g.deck.length := by omega
    exact ⟨draw_step_inv inv hp hlt,
      ⟨rfl, rfl, rfl, rfl, rfl, rfl, rfl, rfl⟩⟩

/-- Forced draws `_forceDrawCards` preserve the invariant and the turn-engine frame. -/
theorem forceDraw_inv {σ : List Nat → List Nat} {x : Nat}
    (hσ : ∀ l, (σ l).Perm l) :
    ∀ (n : Nat) {g g' : Game} {p : Address}, Inv x g → p ∈ g.players →
    forceDrawCards σ g p n = .ok g' →
    Inv x g' ∧ SideFrame g g'
  | 0, g, g', p, inv, _, h => by
      unfold forceDrawCards at h
      cases h
      exact ⟨⟨inv.nodup, inv.cpi_lt, inv.ledger, inv.top_last, inv.window_mem⟩,
        ⟨rfl, rfl, rfl, rfl, rfl, rfl, rfl, rfl⟩⟩
  | n + 1, g, g', p, inv, hp, h => by
      unfold forceDrawCards at h
      cases h1 : drawOneInto σ g p with
      | error e =>
        rw [h1] at h
        simp [Except.bind, bind] at h
      | ok gm =>
        rw [h1] at h
        simp only [Except.bind, bind] at h
        obtain ⟨invm, fr⟩ := drawOne_inv hσ inv hp h1
        have hpm : p ∈ gm.players := by rw [fr.players]; exact hp
        obtain ⟨inv', fr'⟩ := forceDraw_inv hσ n invm hpm h
        exact ⟨inv', fr.comp fr'⟩

/-- Advancing `_advanceToNextPlayer` preserves the invariant. -/
theorem advance_inv {σ : List Nat → List Nat} {x : Nat} {g g' : Game}
    (hσ : ∀ l, (σ l).Perm l) (inv : Inv x g)
    (h : advanceToNextPlayer σ g = .ok g') :
    Inv x g' ∧ g'.players = g.players ∧ g'.status = g.status := by
  unfold advanceToNextPlayer at h
  simp only [] at h
  by_cases hskip : g.skipNextPlayer
  · rw [if_pos hskip] at h
    set idx1 := stepIndex g.currentPlayerIndex g.direction g.players.length with hidx
    have hidx1 : idx1 < g.players.length := stepIndex_lt g.direction inv.cpi_lt
    set g1 : Game := { g with currentPlayerIndex := idx1, skipNextPlayer := false }
      with hg1
    have inv1 : Inv x g1 :=
      ⟨inv.nodup, hidx1, inv.ledger, inv.top_last, inv.window_mem⟩
    have hmem : g.players.getD idx1 0 ∈ g.players := by
      rw [List.getD_eq_getElem g.players 0 hidx1]
      exact List.getElem_mem hidx1
    by_cases hpend : g1.pendingDraws > 0
    · rw [if_pos hpend] at h
      cases hf : forceDrawCards σ g1 (g.players.getD idx1 0) g1.pendingDraws with
      | error e =>
        rw [hf] at h
        simp [Except.bind, bind, Except.map] at h
      | ok gm =>
        rw [hf] at h
        simp only [Except.bind, bind, Except.map] at h
        obtain ⟨invm, fr⟩ := forceDraw_inv hσ _ inv1 hmem hf
        cases h
        refine ⟨⟨invm.nodup, ?_, invm.ledger, invm.top_last, invm.window_mem⟩,
          by simpa using fr.players, by simpa using fr.status⟩
        show stepIndex gm.currentPlayerIndex gm.direction g.players.length
            < gm.players.length
        rw [fr.players]
        apply stepIndex_lt
        rw [fr.cpi]
        exact hidx1
    · rw [if_neg hpend] at h
      simp only [Except.bind, bind] at h
      cases h
      refine ⟨⟨inv.nodup, ?_, inv.ledger, inv.top_last, inv.window_mem⟩, rfl, rfl⟩
      exact stepIndex_lt g.direction hidx1
  · rw [if_neg hskip] at h
    cases h
    exact ⟨⟨inv.nodup, stepIndex_lt g.direction inv.cpi_lt, inv.ledger,
      inv.top_last, inv.window_mem⟩, rfl, rfl⟩

/-- Creation: `createGame` establishes the invariant, for any permutation deck. -/
theorem create_inv {c tid : Nat} {d : List Nat} {g : Game}
    (hperm : d.Perm (List.range DECK_SIZE))
    (h : createGame c tid d = .ok g) :
    Inv (eget d INITIAL_HAND_SIZE) g := by
  unfold createGame at h
  split at h
  · cases h
  · next hrange =>
    simp only [] at h
    cases h
    have hlen : d.length = DECK_SIZE := by
      rw [hperm.length_eq, List.length_range]
    have h7 : INITIAL_HAND_SIZE < d.length := by
      rw [hlen]
      decide
    refine ⟨List.nodup_singleton c, by simp [emptyGame], ?_, ?_, ?_⟩
    · show handsLedger _ + deckRemaining _ + movesLedger _ + _ = canonical108
      have hhands : handsLedger
          { emptyGame with
            id := 1, players := [c], status := .NotStarted, deck := d, moves := [],
            deckIndex := INITIAL_HAND_SIZE + 1, direction := 1,
            topCard := eget d INITIAL_HAND_SIZE, topCardId := tid,
            currentColor := if tid ≥ WILD_START then 0 else getCardColor tid,
            hands := Function.update (fun _ => []) c (eslice d 0 INITIAL_HAND_SIZE) }
          = ((eslice d 0 INITIAL_HAND_SIZE : List Nat) : Multiset Nat) := by
        rw [handsLedger_eq]
        unfold handsSum
        simp
      rw [hhands]
      have hslice : eslice d 0 INITIAL_HAND_SIZE = d.take INITIAL_HAND_SIZE := by
        unfold eslice
        simp
      rw [hslice]
      show (d.take INITIAL_HAND_SIZE : Multiset Nat)
          + ((d.drop (INITIAL_HAND_SIZE + 1) : List Nat) : Multiset Nat)
          + (([] : List Nat) : Multiset Nat) + {eget d INITIAL_HAND_SIZE} = canonical108
      have hsplit := coe_split_at d INITIAL_HAND_SIZE h7
      have hcanon : canonical108 = (d : Multiset Nat) :=
        (Multiset.coe_eq_coe.mpr hperm).symm
      rw [hcanon, hsplit]
      have hnil : (([] : List Nat) : Multiset Nat) = 0 := rfl
      rw [hnil]
      abel
    · intro hne
      simp at hne
    · intro hopen
      simp [emptyGame] at hopen

/-- Joining: `joinGame` preserves the invariant. -/
theorem join_inv {x : Nat} {g g' : Game} {p : Address} (inv : Inv x g)
    (h : joinGame g p = .ok g') : Inv x g' := by
  unfold joinGame at h
  split at h
  · cases h
  split at h
  · cases h
  split at h
  · cases h
  split at h
  · cases h
  rename_i hst hfull hpnot hcards
  simp only [] at h
  cases h
  set v := eslice g.deck g.deckIndex (g.deckIndex + INITIAL_HAND_SIZE) with hv
  refine ⟨?_, ?_, ?_, ?_, ?_⟩
  · simp [List.nodup_append, inv.nodup, hpnot]
  · show g.currentPlayerIndex < (g.players ++ [p]).length
    rw [List.length_append]
    exact Nat.lt_of_lt_of_le inv.cpi_lt (by omega)
  · show handsLedger _ + deckRemaining _ + movesLedger _ + _ = canonical108
    have hhands : handsLedger
        { g with
          players := g.players ++ [p],
          deckIndex := g.deckIndex + INITIAL_HAND_SIZE,
          hands := Function.update g.hands p v }
        = handsSum g.players g.hands + (v : Multiset Nat) := by
      rw [handsLedger_eq]
      show handsSum (g.players ++ [p]) (Function.update g.hands p v) = _
      rw [handsSum_append]
      have hcongr : handsSum g.players (Function.update g.hands p v)
          = handsSum g.players g.hands := by
        refine handsSum_congr _ _ _ (fun q hq => ?_)
        have hqp : q ≠ p := by
          intro e
          subst e
          exact hpnot hq
        exact Function.update_noteq hqp v g.hands
      rw [hcongr, Function.update_same]
    have hdeck : ((g.deck.drop g.deckIndex : List Nat) : Multiset Nat)
        = (v : Multiset Nat)
          + ((g.deck.drop (g.deckIndex + INITIAL_HAND_SIZE) : List Nat) : Multiset Nat) := by
      have hv7 : v = (g.deck.drop g.deckIndex).take INITIAL_HAND_SIZE := by
        rw [hv]
        unfold eslice
        congr 1
        omega
      have hdd : (g.deck.drop g.deckIndex).drop INITIAL_HAND_SIZE
          = g.deck.drop (g.deckIndex + INITIAL_HAND_SIZE) := by
        rw [List.drop_drop]
      conv_lhs => rw [← List.take_append_drop INITIAL_HAND_SIZE (g.deck.drop g.deckIndex)]
      rw [coe_append, hdd, ← hv7]
    rw [hhands]
    show handsSum g.players g.hands + (v : Multiset Nat)
        + ((g.deck.drop (g.deckIndex + INITIAL_HAND_SIZE) : List Nat) : Multiset Nat)
        + (g.moves : Multiset Nat) + {x} = canonical108
    have hledger := inv.ledger
    unfold coreLedger deckRemaining movesLedger at hledger
    rw [handsLedger_eq] at hledger
    rw [hdeck] at hledger
    rw [← hledger]
    abel
  · exact inv.top_last
  · intro hopen
    exact List.mem_append_left _ (inv.window_mem hopen)

/-- Starting: `startGame` preserves the invariant. -/
theorem start_inv {x : Nat} {g g' : Game} (inv : Inv x g)
    (h : startGame g = .ok g') : Inv x g' := by
  unfold startGame at h
  split at h
  · cases h
  split at h
  · cases h
  cases h
  exact ⟨inv.nodup, inv.cpi_lt, inv.ledger, inv.top_last, inv.window_mem⟩

/-- Declaring: `callUno` preserves the invariant. -/
theorem callUno_inv {x : Nat} {g g' : Game} {s : Address} (inv : Inv x g)
    (h : callUno g s = .ok g') : Inv x g' := by
  unfold callUno at h
  split at h
  · cases h
  split at h
  · cases h
  split at h
  · cases h
  cases h
  exact ⟨inv.nodup, inv.cpi_lt, inv.ledger, inv.top_last, inv.window_mem⟩

/-- Normal form of `commitMoveCore` as a single record update. -/
theorem commitMoveCore_eq (g : Game) (s : Address) (ci rid col : Nat) :
    commitMoveCore g s ci rid col =
      (let currentHand := g.hands s
       let handSize := currentHand.length
       let ct := getCardType rid
       let newHand :=
         if handSize = 1 then [] else removeCardFromHand currentHand ci handSize
       let opened := handSize = 2 ∧ newHand.length = 1 ∧ ¬ g.hasCalledUno s
       { g with
         hands := Function.update g.hands s newHand,
         unoWindowOpen := if opened then true else g.unoWindowOpen,
         unoWindowPlayer := if opened then s else g.unoWindowPlayer,
         hasCalledUno := Function.update g.hasCalledUno s false,
         unoPenaltyApplied := Function.update g.unoPenaltyApplied s false,
         topCard := eget currentHand ci,
         topCardId := rid,
         currentColor :=
           if ct = CARD_TYPE_WILD ∨ ct = CARD_TYPE_WILD_DRAW_FOUR then col
           else getCardColor rid,
         moves := g.moves ++ [eget currentHand ci],
         direction := if ct = CARD_TYPE_REVERSE then -g.direction else g.direction,
         pendingDraws :=
           if ct = CARD_TYPE_DRAW_TWO then 2
           else if ct = CARD_TYPE_WILD_DRAW_FOUR then 4
           else g.pendingDraws,
         skipNextPlayer :=
           if ct = CARD_TYPE_SKIP then true
           else if ct = CARD_TYPE_REVERSE ∧ g.players.length = 2 then true
           else if ct = CARD_TYPE_DRAW_TWO then true
           else if ct = CARD_TYPE_WILD_DRAW_FOUR then true
           else g.skipNextPlayer }) := by
  unfold commitMoveCore
  simp only [maybeOpenWindow_eq, applyCardEffect_eq]

/-- The core update `commitMoveCore` preserves the invariant (for an in-range index and a
registered sender). -/
theorem commitCore_inv {x : Nat} {g : Game} {s : Address} {ci rid col : Nat}
    (inv : Inv x g) (hs : s ∈ g.players) (hci : ci < (g.hands s).length) :
    Inv x (commitMoveCore g s ci rid col) := by
  rw [commitMoveCore_eq]
  simp only []
  set hand := g.hands s with hh
  set newHand := if hand.length = 1 then [] else removeCardFromHand hand ci hand.length
    with hnh
  have herase : newHand = hand.eraseIdx ci := commitNewHand_eraseIdx hand ci hci
  refine ⟨inv.nodup, inv.cpi_lt, ?_, ?_, ?_⟩
  · show handsSum g.players (Function.update g.hands s newHand)
        + ((g.deck.drop g.deckIndex : List Nat) : Multiset Nat)
        + ((g.moves ++ [eget hand ci] : List Nat) : Multiset Nat) + {x} = canonical108
    have hupd := handsSum_update g.players g.hands s newHand hs inv.nodup
    have hsplit : (hand : Multiset Nat)
        = (newHand : Multiset Nat) + {eget hand ci} := by
      rw [herase]
      exact coe_eraseIdx hand ci hci
    have hledger := inv.ledger
    unfold coreLedger deckRemaining movesLedger at hledger
    rw [handsLedger_eq] at hledger
    rw [← hh] at hupd
    have key : handsSum g.players (Function.update g.hands s newHand)
          + ((g.deck.drop g.deckIndex : List Nat) : Multiset Nat)
          + (((g.moves : List Nat) : Multiset Nat) + {eget hand ci}) + {x}
          + (hand : Multiset Nat)
        = canonical108 + (hand : Multiset Nat) := by
      calc handsSum g.players (Function.update g.hands s newHand)
            + ((g.deck.drop g.deckIndex : List Nat) : Multiset Nat)
            + (((g.moves : List Nat) : Multiset Nat) + {eget hand ci}) + {x}
            + (hand : Multiset Nat)
          = handsSum g.players (Function.update g.hands s newHand) + (hand : Multiset Nat)
            + (((g.deck.drop g.deckIndex : List Nat) : Multiset Nat)
               + ((g.moves : List Nat) : Multiset Nat) + {eget hand ci} + {x}) := by abel
        _ = handsSum g.players g.hands + (newHand : Multiset Nat)
            + (((g.deck.drop g.deckIndex : List Nat) : Multiset Nat)
               + ((g.moves : List Nat) : Multiset Nat) + {eget hand ci} + {x}) := by
              rw [hupd]
        _ = handsSum g.players g.hands
            + ((g.deck.drop g.deckIndex : List Nat) : Multiset Nat)
            + ((g.moves : List Nat) : Multiset Nat) + {x}
            + ((newHand : Multiset Nat) + {eget hand ci}) := by abel
        _ = canonical108 + (hand : Multiset Nat) := by rw [← hsplit, hledger]
    have hgoal : ((g.moves ++ [eget hand ci] : List Nat) : Multiset Nat)
        = ((g.moves : List Nat) : Multiset Nat) + {eget hand ci} := by
      rw [coe_append]
      have hc1 : ((([eget hand ci] : List Nat)) : Multiset Nat) = {eget hand ci} :=
        Multiset.coe_singleton _
      rw [hc1]
    rw [hgoal]
    exact add_right_cancel key
  · intro _
    show (g.moves ++ [eget hand ci]).getLast? = some (eget hand ci)
    simp
  · intro hopen
    show (if hand.length = 2 ∧ newHand.length = 1 ∧ ¬ g.hasCalledUno s then s
          else g.unoWindowPlayer) ∈ g.players
    split
    · exact hs
    · apply inv.window_mem
      by_contra hno
      have hfalse : g.unoWindowOpen = false := by
        cases hgo : g.unoWindowOpen
        · rfl
        · exact absurd hgo hno
      rw [hfalse] at hopen
      split at hopen
      · cases hopen
      · cases hopen

/-- Playing: `commitMove` preserves the invariant. -/
theorem commit_inv {σ : List Nat → List Nat} {x : Nat} {g g' : Game} {s : Address}
    {ci rid col : Nat} (hσ : ∀ l, (σ l).Perm l) (inv : Inv x g)
    (h : commitMove σ g s ci rid col = .ok g') : Inv x g' := by
  unfold commitMove at h
  split at h
  · cases h
  split at h
  · cases h
  split at h
  · cases h
  split at h
  · cases h
  split at h
  · cases h
  rename_i hstat hmem hturn hcol hrid
  rw [closeWindowCommit_eq] at h
  simp only [] at h
  split at h
  · cases h
  split at h
  · cases h
  rename_i hci hplay
  set gW : Game := { g with unoWindowOpen := false } with hgW
  have invW : Inv x gW :=
    ⟨inv.nodup, inv.cpi_lt, inv.ledger, inv.top_last, by intro e; cases e⟩
  have hsW : s ∈ gW.players := not_not.mp hmem
  have hciW : ci < (gW.hands s).length := not_not.mp (by exact fun hn => hci hn)
  have invCore : Inv x (commitMoveCore gW s ci rid col) :=
    commitCore_inv invW hsW hciW
  split at h
  · cases h
    exact ⟨invCore.nodup, invCore.cpi_lt, invCore.ledger, invCore.top_last,
      invCore.window_mem⟩
  · exact (advance_inv hσ invCore h).1

/-- Inversion of a successful `Except` bind. -/
theorem except_bind_ok {α β : Type} {e : Except String α} {f : α → Except String β}
    {b : β} (h : e >>= f = .ok b) : ∃ a, e = .ok a ∧ f a = .ok b := by
  cases e with
  | error msg => cases h
  | ok a =>
    refine ⟨a, rfl, ?_⟩
    simpa [Except.bind, bind, Except.instMonad] using h

/-- Drawing: `drawCard` preserves the invariant. -/
theorem draw_inv {σ : List Nat → List Nat} {x : Nat} {g g' : Game} {s : Address}
    {et : Bool} (hσ : ∀ l, (σ l).Perm l) (inv : Inv x g)
    (h : drawCard σ g s et = .ok g') : Inv x g' := by
  unfold drawCard at h
  split at h
  · cases h
  split at h
  · cases h
  split at h
  · cases h
  rename_i hstat hmem hturn
  have hsmem : s ∈ g.players := not_not.mp hmem
  rcases Decidable.em (g.deckIndex ≥ g.deck.length) with hex | hex
  · rw [if_pos hex] at h
    obtain ⟨gm, hgm, htail⟩ := except_bind_ok h
    obtain ⟨invm, hpl, _, _, _, _, _, _, _, _, _, _, _, hlt⟩ :=
      reshuffle_inv hσ inv hex hgm
    simp only [closeWindowDraw_eq] at htail
    have inv2 : Inv x { gm with unoWindowOpen := false } :=
      ⟨invm.nodup, invm.cpi_lt, invm.ledger, invm.top_last, by intro e; cases e⟩
    have hs2 : s ∈ gm.players := by
      rw [hpl]
      exact hsmem
    have inv3 := draw_step_inv (g := { gm with unoWindowOpen := false }) inv2 hs2 hlt
    split at htail
    · exact (advance_inv hσ inv3 htail).1
    · cases htail
      exact inv3
  · rw [if_neg hex] at h
    obtain ⟨gm, hgm, htail⟩ := except_bind_ok h
    cases hgm
    have hlt : g.deckIndex < g.deck.length := by omega
    simp only [closeWindowDraw_eq] at htail
    have inv2 : Inv x { g with unoWindowOpen := false } :=
      ⟨inv.nodup, inv.cpi_lt, inv.ledger, inv.top_last, by intro e; cases e⟩
    have inv3 := draw_step_inv (g := { g with unoWindowOpen := false }) inv2 hsmem hlt
    split at htail
    · exact (advance_inv hσ inv3 htail).1
    · cases htail
      exact inv3

/-- Penalising: `penalizeUno` preserves the invariant. -/
theorem penalize_inv {σ : List Nat → List Nat} {x : Nat} {g g' : Game}
    {s t : Address} (hσ : ∀ l, (σ l).Perm l) (inv : Inv x g)
    (h : penalizeUno σ g s t = .ok g') : Inv x g' := by
  unfold penalizeUno at h
  split at h
  · cases h
  split at h
  · cases h
  split at h
  · cases h
  split at h
  · cases h
  split at h
  · cases h
  split at h
  · cases h
  rename_i hstat hmem hself hwin hsub hpen
  simp only [] at h
  set g1 : Game := { g with
    unoWindowOpen := false,
    unoPenaltyApplied := Function.update g.unoPenaltyApplied t true } with hg1
  have inv1 : Inv x g1 :=
    ⟨inv.nodup, inv.cpi_lt, inv.ledger, inv.top_last, by intro e; cases e⟩
  have htmem : t ∈ g1.players := by
    show t ∈ g.players
    have hopen : g.unoWindowOpen = true := not_not.mp hwin
    have := inv.window_mem hopen
    rwa [not_not.mp hsub] at this
  exact (forceDraw_inv hσ 2 inv1 htmem h).1

/-- Every state reachable through the public action surface satisfies the
invariant, for any permutation-respecting shuffle source. -/
theorem reach_inv {σ : List Nat → List Nat} {x : Nat} {g : Game}
    (hσ : ∀ l, (σ l).Perm l) (h : Reach σ x g) : Inv x g := by
  induction h with
  | create hp hc => exact create_inv hp hc
  | join _ hj ih => exact join_inv ih hj
  | start _ hs ih => exact start_inv ih hs
  | commit _ hc ih => exact commit_inv hσ ih hc
  | draw _ hd ih => exact draw_inv hσ ih hd
  | uno _ hu ih => exact callUno_inv ih hu
  | penalize _ hp ih => exact penalize_inv hσ ih hp

/-! ## Claim C1: the partition invariant -/

/-- A concrete run: create with the identity permutation deck, a second
player joins, the game starts. -/
def cexG1 : Game := ((createGame 1 0 (List.range 108)).toOption).getD emptyGame

def cexG2 : Game := ((joinGame cexG1 2).toOption).getD emptyGame

def cexG3 : Game := ((startGame cexG2).toOption).getD emptyGame

/-- The creator (current player) plays their first card (actual id 0)
declaring it as card 1 (a red 1, playable on the red top). -/
def cexG4 : Game := ((commitMove (fun l => l) cexG3 1 0 1 0).toOption).getD emptyGame

/-- C1, counterexample: after the very first play of a game, the union of
all hands, the remaining draw pile, and the discard pile read as the
moves list together with the current top card is NOT the 108 canonical
ids: the card dealt face-up at creation (id 7 here) has disappeared from
that union, and the played card (id 0) appears twice, because
`commitMove` stores the played card both in `topCard` and at the end of
`moves` while the previous table card is dropped.  The state is reachable
through createGame, joinGame, startGame, commitMove. -/
theorem C1_counterexample :
    createGame 1 0 (List.range 108) = .ok cexG1 ∧
    joinGame cexG1 2 = .ok cexG2 ∧
    startGame cexG2 = .ok cexG3 ∧
    commitMove (fun l => l) cexG3 1 0 1 0 = .ok cexG4 ∧
    Reach (fun l => l) 7 cexG4 ∧
    Multiset.count 7 (claimLedger cexG4) = 0 ∧
    Multiset.count 0 (claimLedger cexG4) = 2 ∧
    Multiset.count 7 canonical108 = 1 ∧
    claimLedger cexG4 ≠ canonical108 := by
  have hc1 : createGame 1 0 (List.range 108) = .ok cexG1 := rfl
  have hc2 : joinGame cexG1 2 = .ok cexG2 := rfl
  have hc3 : startGame cexG2 = .ok cexG3 := rfl
  have hc4 : commitMove (fun l => l) cexG3 1 0 1 0 = .ok cexG4 := rfl
  refine ⟨hc1, hc2, hc3, hc4, ?_, by decide, by decide, by decide, by decide⟩
  exact Reach.commit (Reach.start (Reach.join
    (Reach.create (List.Perm.refl _) hc1) hc2) hc3) hc4

/-- C1 (amended): in every state reachable through the public action
surface, the multiset union of all players' hands, the remaining draw
pile, and the moves history, **together with the one card dealt face-up
to the table at creation** (deck position 7, whose value is dropped from
the ledger once the first play overwrites `topCard`), is exactly the 108
canonical ids — no id duplicated, no id dropped.  Counting the discard
pile as "moves plus the current `topCard`", as the claim states, fails
after the first play. -/
theorem C1_partition_invariant (σ : List Nat → List Nat)
    (hσ : ∀ l, (σ l).Perm l) (x : Nat) (g : Game) (h : Reach σ x g) :
    coreLedger g + {x} = canonical108 :=
  (reach_inv hσ h).ledger

theorem C1_partition_invariant_witness :
    coreLedger cexG1 + {7} = canonical108 :=
  C1_partition_invariant (fun l => l) (fun l => List.Perm.refl l) 7 cexG1
    (Reach.create (List.Perm.refl _)
      (show createGame 1 0 (List.range 108) = .ok cexG1 from rfl))

/-! ## Claim C9: the card codec -/

/-- C9: the decode functions realise the documented band layout: Number
ids in `[0,76)` with colour `id / 19` and, per colour, rank 0 once and
ranks 1-9 twice each; Skip `[76,84)`, Reverse `[84,92)`, DrawTwo
`[92,100)` with colour `(id - bandStart) / 2`; Wild `[100,104)` and
WildDrawFour `[104,108)` with no colour (encoded 4); and the five specific
decode examples of the specification. -/
theorem C9_codec :
    (∀ id < 76, getCardType id = CARD_TYPE_NUMBER ∧ getCardColor id = id / 19) ∧
    (∀ id < 84, 76 ≤ id →
      getCardType id = CARD_TYPE_SKIP ∧ getCardColor id = (id - 76) / 2) ∧
    (∀ id < 92, 84 ≤ id →
      getCardType id = CARD_TYPE_REVERSE ∧ getCardColor id = (id - 84) / 2) ∧
    (∀ id < 100, 92 ≤ id →
      getCardType id = CARD_TYPE_DRAW_TWO ∧ getCardColor id = (id - 92) / 2) ∧
    (∀ id < 104, 100 ≤ id →
      getCardType id = CARD_TYPE_WILD ∧ getCardColor id = 4) ∧
    (∀ id < 108, 104 ≤ id →
      getCardType id = CARD_TYPE_WILD_DRAW_FOUR ∧ getCardColor id = 4) ∧
    (∀ c < 4, ((List.range 108).filter (fun i =>
        getCardType i = CARD_TYPE_NUMBER ∧ getCardColor i = c ∧
        getCardValue i = 0)).length = 1) ∧
    (∀ c < 4, ∀ v < 10, 1 ≤ v → ((List.range 108).filter (fun i =>
        getCardType i = CARD_TYPE_NUMBER ∧ getCardColor i = c ∧
        getCardValue i = v)).length = 2) ∧
    (getCardType 0 = CARD_TYPE_NUMBER ∧ getCardColor 0 = 0 ∧ getCardValue 0 = 0) ∧
    (getCardType 75 = CARD_TYPE_NUMBER ∧ getCardColor 75 = 3 ∧ getCardValue 75 = 9) ∧
    (getCardType 76 = CARD_TYPE_SKIP ∧ getCardColor 76 = 0) ∧
    (getCardType 100 = CARD_TYPE_WILD ∧ getCardColor 100 = 4) ∧
    (getCardType 104 = CARD_TYPE_WILD_DRAW_FOUR ∧ getCardColor 104 = 4) := by
  refine ⟨by decide, by decide, by decide, by decide, by decide, by decide,
    by decide, by decide, by decide, by decide, by decide, by decide, by decide⟩

theorem C9_codec_witness :
    getCardType 50 = CARD_TYPE_NUMBER ∧ getCardColor 50 = 50 / 19 :=
  C9_codec.1 50 (by decide)

/-! ## Claim C10: remove-from-hand -/

/-- C10: for a hand of size `n ≥ 1` and index `i < n`, the three-branch
`_removeCardFromHand` yields exactly the hand with position `i` deleted
and all other cards in their original relative order (`List.eraseIdx`),
of size `n - 1`; and `commitMove` rejects an out-of-range index with the
`Card index out of bounds` error. -/
theorem C10_remove_from_hand :
    (∀ (hand : List Nat) (i : Nat), i < hand.length →
       removeCardFromHand hand i hand.length = hand.eraseIdx i ∧
       (removeCardFromHand hand i hand.length).length = hand.length - 1) ∧
    (∀ (σ : List Nat → List Nat) (g : Game) (s : Address) (i rid col : Nat),
       g.status = .Started → s ∈ g.players →
       g.players.getD g.currentPlayerIndex 0 = s → col ≤ 3 → rid < DECK_SIZE →
       ¬ i < (g.hands s).length →
       commitMove σ g s i rid col = .error "Card index out of bounds") := by
  constructor
  · intro hand i hi
    refine ⟨removeCardFromHand_eraseIdx hand i hi, ?_⟩
    rw [removeCardFromHand_eraseIdx hand i hi, List.length_eraseIdx]
    simp [hi]
  · intro σ g s i rid col hst hmem hturn hcol hrid hio
    unfold commitMove
    rw [if_neg (not_not_intro hst), if_neg (not_not_intro hmem),
        if_neg (not_not_intro hturn), if_neg (not_not_intro hcol),
        if_neg (not_not_intro hrid), closeWindowCommit_eq]
    simp only []
    split
    · rfl
    · next hcon => exact absurd (not_not.mp hcon) hio

theorem C10_remove_from_hand_witness :
    removeCardFromHand [4, 9, 23, 31] 2 4 = [4, 9, 31] ∧
    (removeCardFromHand [4, 9, 23, 31] 2 4).length = 3 := by
  have h := C10_remove_from_hand.1 [4, 9, 23, 31] 2 (by decide)
  simpa using h

/-! ## Claim C8: reshuffle -/

/-- C8: reshuffling requires a discard pile (moves list) of size at least
2 and fails with the `No cards left to reshuffle` error otherwise; on
success the new discard pile is exactly the current top-of-discard card,
the new draw pile is a permutation of all other discarded cards
(`moves` without its last entry), and the draw cursor is reset to 0, the
top card being unchanged. -/
theorem C8_reshuffle (σ : List Nat → List Nat) (hσ : ∀ l, (σ l).Perm l)
    (g : Game) :
    (g.moves.length < 2 →
      reshuffleFromDiscards σ g = .error "No cards left to reshuffle") ∧
    (2 ≤ g.moves.length →
      ∃ g', reshuffleFromDiscards σ g = .ok g' ∧
        g'.moves = [g.topCard] ∧
        g'.topCard = g.topCard ∧
        g'.topCardId = g.topCardId ∧
        g'.deckIndex = 0 ∧
        g'.deck.Perm g.moves.dropLast ∧
        g'.moves.getLast? = some g.topCard) := by
  constructor
  · intro hlt
    unfold reshuffleFromDiscards
    rw [if_pos (by omega)]
  · intro hge
    refine ⟨{ g with
        deck := σ (eslice g.moves 0 (g.moves.length - 1)),
        deckIndex := 0,
        moves := [g.topCard] }, ?_, rfl, rfl, rfl, rfl, ?_, rfl⟩
    · unfold reshuffleFromDiscards
      rw [if_neg (by omega)]
    · show (σ (eslice g.moves 0 (g.moves.length - 1))).Perm g.moves.dropLast
      have hs : eslice g.moves 0 (g.moves.length - 1)
          = g.moves.take (g.moves.length - 1) := by
        unfold eslice
        simp
      refine (hσ _).trans ?_
      rw [hs, List.dropLast_eq_take]

theorem C8_reshuffle_witness :
    (reshuffleFromDiscards (fun l => l)
      { emptyGame with moves := [5] }).toOption = none ∧
    (∃ g', reshuffleFromDiscards (fun l => l)
        { emptyGame with moves := [5, 9, 17], topCard := 17 } = .ok g' ∧
      g'.moves = [17] ∧ g'.topCard = 17 ∧ g'.topCardId = 0 ∧ g'.deckIndex = 0 ∧
      g'.deck.Perm [5, 9] ∧ g'.moves.getLast? = some 17) := by
  constructor
  · have h := (C8_reshuffle (fun l => l) (fun l => List.Perm.refl l)
      { emptyGame with moves := [5] }).1 (by decide)
    rw [h]
    rfl
  · exact (C8_reshuffle (fun l => l) (fun l => List.Perm.refl l)
      { emptyGame with moves := [5, 9, 17], topCard := 17 }).2 (by decide)

/-! ## Symbolic evaluation helpers for the action functions -/

/-- Evaluation: `commitMove` with all guards satisfied reduces to the core update
followed by the win check / turn advance. -/
theorem commitMove_unfold {σ : List Nat → List Nat} {g : Game} {s : Address}
    {ci rid col : Nat}
    (hst : g.status = .Started) (hmem : s ∈ g.players)
    (hturn : g.players.getD g.currentPlayerIndex 0 = s)
    (hcol : col ≤ 3) (hrid : rid < DECK_SIZE)
    (hci : ci < (g.hands s).length)
    (hplay : isCardPlayableInternal rid g.topCardId g.currentColor = true) :
    commitMove σ g s ci rid col =
      (let g2 := commitMoveCore { g with unoWindowOpen := false } s ci rid col
       if (g2.hands s).length = 0 then .ok { g2 with status := .Ended, winner := s }
       else advanceToNextPlayer σ g2) := by
  unfold commitMove
  rw [if_neg (not_not_intro hst), if_neg (not_not_intro hmem),
      if_neg (not_not_intro hturn), if_neg (not_not_intro hcol),
      if_neg (not_not_intro hrid), closeWindowCommit_eq]
  simp only []
  rw [if_neg (not_not_intro hci), if_neg (not_not_intro hplay)]

/-- Evaluation: `_advanceToNextPlayer` with no skip pending is a single index step. -/
theorem advance_noskip {σ : List Nat → List Nat} {g : Game}
    (hskip : g.skipNextPlayer = false) :
    advanceToNextPlayer σ g = .ok { g with
      currentPlayerIndex :=
        stepIndex g.currentPlayerIndex g.direction g.players.length } := by
  unfold advanceToNextPlayer
  simp only []
  rw [if_neg (by simp [hskip])]

/-- Evaluation: `_advanceToNextPlayer` with the skip flag set and no pending draws is
a double index step that clears the flag. -/
theorem advance_skip {σ : List Nat → List Nat} {g : Game}
    (hskip : g.skipNextPlayer = true) (hpend : g.pendingDraws = 0) :
    advanceToNextPlayer σ g = .ok { g with
      currentPlayerIndex :=
        stepIndex (stepIndex g.currentPlayerIndex g.direction g.players.length)
          g.direction g.players.length,
      skipNextPlayer := false } := by
  unfold advanceToNextPlayer
  simp only []
  rw [if_pos (by simp [hskip])]
  rw [if_neg (by simp [hpend])]
  simp [Except.bind, bind, Except.instMonad]

/-- With two players, two rotation steps in the same direction return to
the start. -/
theorem stepIndex_two {i : Nat} (d : Int) (hi : i < 2) :
    stepIndex (stepIndex i d 2) d 2 = i := by
  unfold stepIndex
  split_ifs <;> first | omega | simp_all

/-- The observable outcome of `_forceDrawCards` when the draw pile can
serve all `n` draws without reshuffling. -/
structure ForceDrawOut (g : Game) (p : Address) (n : Nat) (gm : Game) : Prop where
  players : gm.players = g.players
  status : gm.status = g.status
  cpi : gm.currentPlayerIndex = g.currentPlayerIndex
  direction : gm.direction = g.direction
  skip : gm.skipNextPlayer = g.skipNextPlayer
  pending : gm.pendingDraws = g.pendingDraws
  wopen : gm.unoWindowOpen = g.unoWindowOpen
  wplayer : gm.unoWindowPlayer = g.unoWindowPlayer
  topCard : gm.topCard = g.topCard
  topCardId : gm.topCardId = g.topCardId
  currentColor : gm.currentColor = g.currentColor
  winner : gm.winner = g.winner
  deck : gm.deck = g.deck
  deckIndex : gm.deckIndex = g.deckIndex + n
  moves : gm.moves = g.moves
  hand_len : (gm.hands p).length = (g.hands p).length + n
  hands_other : ∀ q, q ≠ p → gm.hands q = g.hands q
  called : gm.hasCalledUno p = false
  called_other : ∀ q, q ≠ p → gm.hasCalledUno q = g.hasCalledUno q
  pen : gm.unoPenaltyApplied p = false
  pen_other : ∀ q, q ≠ p → gm.unoPenaltyApplied q = g.unoPenaltyApplied q

theorem forceDraw_eval {σ : List Nat → List Nat} :
    ∀ (n : Nat) {g : Game} {p : Address}, g.deckIndex + n ≤ g.deck.length →
    ∃ gm, forceDrawCards σ g p n = .ok gm ∧ ForceDrawOut g p n gm
  | 0, g, p, _ => by
      refine ⟨_, rfl, ?_⟩
      refine ⟨rfl, rfl, rfl, rfl, rfl, rfl, rfl, rfl, rfl, rfl, rfl, rfl, rfl,
        by simp, rfl, by simp, fun q hq => rfl, by simp, fun q hq => ?_,
        by simp, fun q hq => ?_⟩
      · exact Function.update_noteq hq false g.hasCalledUno
      · exact Function.update_noteq hq false g.unoPenaltyApplied
  | n + 1, g, p, hb => by
      have hlt : g.deckIndex < g.deck.length := by omega
      have hone : drawOneInto σ g p = .ok { g with
          deckIndex := g.deckIndex + 1,
          hands := Function.update g.hands p
            (g.hands p ++ [eget g.deck g.deckIndex]) } := by
        unfold drawOneInto
        rw [if_neg (by omega)]
        simp [Except.bind, bind, Except.instMonad]
      set g1 : Game := { g with
          deckIndex := g.deckIndex + 1,
          hands := Function.update g.hands p
            (g.hands p ++ [eget g.deck g.deckIndex]) } with hg1
      have hb1 : g1.deckIndex + n ≤ g1.deck.length := by
        show g.deckIndex + 1 + n ≤ g.deck.length
        omega
      obtain ⟨gm, hgm, out⟩ := forceDraw_eval n hb1
      refine ⟨gm, ?_, ?_⟩
      · unfold forceDrawCards
        rw [hone]
        simpa [Except.bind, bind, Except.instMonad] using hgm
      · have h1len : (g1.hands p).length = (g.hands p).length + 1 := by
          show (Function.update g.hands p
            (g.hands p ++ [eget g.deck g.deckIndex]) p).length = _
          rw [Function.update_same]
          simp
        refine ⟨out.players, out.status, out.cpi, out.direction, out.skip,
          out.pending, out.wopen, out.wplayer, out.topCard, out.topCardId,
          out.currentColor, out.winner, out.deck, ?_, out.moves, ?_,
          fun q hq => ?_, out.called, fun q hq => out.called_other q hq,
          out.pen, fun q hq => out.pen_other q hq⟩
        · rw [out.deckIndex]
          show g.deckIndex + 1 + n = g.deckIndex + (n + 1)
          omega
        · rw [out.hand_len, h1len]
          omega
        · rw [out.hands_other q hq]
          show Function.update g.hands p (g.hands p ++ [eget g.deck g.deckIndex]) q
              = g.hands q
          exact Function.update_noteq hq _ g.hands

theorem getCardType_number {rid : Nat} (h : rid < 76) :
    getCardType rid = CARD_TYPE_NUMBER := by
  simp only [getCardType, NUMBER_CARDS_END]
  rw [if_pos (by omega)]

theorem getCardType_reverse {rid : Nat} (h1 : 84 ≤ rid) (h2 : rid < 92) :
    getCardType rid = CARD_TYPE_REVERSE := by
  simp only [getCardType, NUMBER_CARDS_END, SKIP_END, REVERSE_END]
  rw [if_neg (by omega), if_neg (by omega), if_pos (by omega)]

/-! ## Claim C7: win detection -/

/-- C7: a successful `commitMove` that empties the actor's hand (1 card
before the play) immediately sets the game status to `Ended`, records the
actor as winner, and does not advance the turn: `currentPlayerIndex` is
unchanged. -/
theorem C7_win_detection (σ : List Nat → List Nat) (g : Game) (s : Address)
    (ci rid col : Nat)
    (hst : g.status = .Started)
    (hcpi : g.currentPlayerIndex < g.players.length)
    (hturn : g.players.getD g.currentPlayerIndex 0 = s)
    (hlen : (g.hands s).length = 1) (hci : ci < (g.hands s).length)
    (hcol : col ≤ 3) (hrid : rid < DECK_SIZE)
    (hplay : isCardPlayableInternal rid g.topCardId g.currentColor = true) :
    (commitMove σ g s ci rid col).map
        (fun h => (h.status, h.winner, h.currentPlayerIndex))
      = .ok (.Ended, s, g.currentPlayerIndex) := by
  have hmem : s ∈ g.players := by
    rw [← hturn, List.getD_eq_getElem g.players 0 hcpi]
    exact List.getElem_mem hcpi
  rw [commitMove_unfold hst hmem hturn hcol hrid hci hplay]
  simp [commitMoveCore_eq, Function.update_same, hlen, Except.map]

theorem C7_win_detection_witness :
    (commitMove (fun l => l)
      { emptyGame with
        players := [10, 20], status := .Started,
        deck := [30, 31, 32, 33], moves := [2], topCard := 2, topCardId := 2,
        currentColor := 0,
        hands := fun a => if a = 10 then [1] else if a = 20 then [19, 20] else [] }
      10 0 1 0).map (fun h => (h.status, h.winner, h.currentPlayerIndex))
      = .ok (.Ended, 10, 0) := by
  have h := C7_win_detection (fun l => l)
    { emptyGame with
      players := [10, 20], status := .Started,
      deck := [30, 31, 32, 33], moves := [2], topCard := 2, topCardId := 2,
      currentColor := 0,
      hands := fun a => if a = 10 then [1] else if a = 20 then [19, 20] else [] }
    10 0 1 0 rfl (by decide) (by decide) (by decide) (by decide) (by decide)
    (by decide) (by decide)
  simpa using h

/-! ## Claim C6: two-player reverse acts as skip -/

/-- C6: in a Started game with exactly 2 participants, a successful play
of a Reverse card (id in `[84,92)`) by the current player flips the
direction and leaves `currentPlayerIndex` unchanged: the direction flip
plus the skip flag double-advance return the turn to the same player. -/
theorem C6_two_player_reverse (σ : List Nat → List Nat) (g : Game) (s : Address)
    (ci rid col : Nat)
    (hst : g.status = .Started) (hnp : g.players.length = 2)
    (hcpi : g.currentPlayerIndex < g.players.length)
    (hturn : g.players.getD g.currentPlayerIndex 0 = s)
    (hpend : g.pendingDraws = 0)
    (hci : ci < (g.hands s).length) (hcol : col ≤ 3)
    (hr1 : 84 ≤ rid) (hr2 : rid < 92)
    (hplay : isCardPlayableInternal rid g.topCardId g.currentColor = true) :
    (commitMove σ g s ci rid col).map
        (fun h => (h.currentPlayerIndex, h.direction))
      = .ok (g.currentPlayerIndex, -g.direction) := by
  have hrid : rid < DECK_SIZE := by
    simp only [DECK_SIZE]
    omega
  have hmem : s ∈ g.players := by
    rw [← hturn, List.getD_eq_getElem g.players 0 hcpi]
    exact List.getElem_mem hcpi
  have hct := getCardType_reverse hr1 hr2
  rw [commitMove_unfold hst hmem hturn hcol hrid hci hplay]
  simp only []
  rw [commitMoveCore_eq]
  simp only []
  by_cases h1 : (g.hands s).length = 1
  · simp [hct, h1, Function.update_same, hnp, Except.map,
      CARD_TYPE_SKIP, CARD_TYPE_REVERSE, CARD_TYPE_DRAW_TWO,
      CARD_TYPE_WILD, CARD_TYPE_WILD_DRAW_FOUR]
  · have herase := commitNewHand_eraseIdx (g.hands s) ci hci
    have hlen2 : ((g.hands s).eraseIdx ci).length = (g.hands s).length - 1 := by
      rw [List.length_eraseIdx]
      simp [hci]
    have hge2 : 2 ≤ (g.hands s).length := by omega
    have hne : ¬ ((g.hands s).eraseIdx ci).length = 0 := by omega
    rw [advance_skip (by simp [hct, hnp, CARD_TYPE_SKIP, CARD_TYPE_REVERSE])
        (by simp [hct, hpend, CARD_TYPE_SKIP, CARD_TYPE_REVERSE,
          CARD_TYPE_DRAW_TWO, CARD_TYPE_WILD_DRAW_FOUR])]
    simp [hct, herase, Function.update_same, hne, Except.map, hnp,
      CARD_TYPE_SKIP, CARD_TYPE_REVERSE, CARD_TYPE_DRAW_TWO,
      CARD_TYPE_WILD, CARD_TYPE_WILD_DRAW_FOUR,
      stepIndex_two (-g.direction) (hnp ▸ hcpi)]

theorem C6_two_player_reverse_witness :
    (commitMove (fun l => l)
      { emptyGame with
        players := [10, 20], status := .Started,
        deck := [30, 31, 32, 33], moves := [2], topCard := 2, topCardId := 2,
        currentColor := 0,
        hands := fun a => if a = 10 then [84, 5] else if a = 20 then [19, 20] else [] }
      10 0 84 0).map (fun h => (h.currentPlayerIndex, h.direction))
      = .ok (0, -1) := by
  have h := C6_two_player_reverse (fun l => l)
    { emptyGame with
      players := [10, 20], status := .Started,
      deck := [30, 31, 32, 33], moves := [2], topCard := 2, topCardId := 2,
      currentColor := 0,
      hands := fun a => if a = 10 then [84, 5] else if a = 20 then [19, 20] else [] }
    10 0 84 0 rfl rfl (by decide) (by decide) rfl (by decide) (by decide)
    (by decide) (by decide) (by decide)
  simpa using h

/-- Turn advancement succeeds and leaves the current player's hand and
the public top-card id untouched, whenever the draw pile can serve the
pending forced draws. -/
theorem advance_frame {σ : List Nat → List Nat} {g : Game} {s : Address}
    (hdeck : g.deckIndex + g.pendingDraws ≤ g.deck.length)
    (hcpi : g.currentPlayerIndex < g.players.length)
    (hnodup : g.players.Nodup) (hn2 : 2 ≤ g.players.length)
    (hs : g.players.getD g.currentPlayerIndex 0 = s) :
    ∃ g', advanceToNextPlayer σ g = .ok g' ∧ g'.topCardId = g.topCardId ∧
      g'.hands s = g.hands s := by
  cases hskip : g.skipNextPlayer
  · exact ⟨_, advance_noskip hskip, rfl, rfl⟩
  · rcases Nat.eq_zero_or_pos g.pendingDraws with hpend | hpend
    · exact ⟨_, advance_skip hskip hpend, rfl, rfl⟩
    · set idx1 := stepIndex g.currentPlayerIndex g.direction g.players.length
        with hidx
      have hidx1 : idx1 < g.players.length := stepIndex_lt _ hcpi
      have hneidx : idx1 ≠ g.currentPlayerIndex := stepIndex_ne _ hcpi hn2
      have hskipped : g.players.getD idx1 0 ≠ s := by
        intro he
        apply hneidx
        rw [List.getD_eq_getElem g.players 0 hidx1] at he
        rw [List.getD_eq_getElem g.players 0 hcpi] at hs
        have : g.players[idx1] = g.players[g.currentPlayerIndex] := by
          rw [he, hs]
        exact (List.Nodup.getElem_inj_iff hnodup).mp this
      unfold advanceToNextPlayer
      simp only []
      rw [if_pos hskip]
      rw [if_pos (by simpa using hpend)]
      have hb : ({ g with
            currentPlayerIndex := idx1,
            skipNextPlayer := false } : Game).deckIndex
            + ({ g with
                currentPlayerIndex := idx1,
                skipNextPlayer := false } : Game).pendingDraws
          ≤ ({ g with
              currentPlayerIndex := idx1,
              skipNextPlayer := false } : Game).deck.length := hdeck
      obtain ⟨gm, hgm, out⟩ := forceDraw_eval (σ := σ)
        (g := { g with currentPlayerIndex := idx1, skipNextPlayer := false })
        (p := g.players.getD idx1 0) g.pendingDraws hb
      rw [hgm]
      refine ⟨{ gm with
          pendingDraws := 0,
          currentPlayerIndex :=
            stepIndex gm.currentPlayerIndex gm.direction g.players.length },
        ?_, ?_, ?_⟩
      · simp [Except.bind, bind, Except.instMonad, Except.map]
      · exact out.topCardId
      · exact out.hands_other s (fun he => hskipped he.symm)

/-! ## Claim C2: the revealed card id is never checked -/

/-- A Started two-player game with an exhausted draw pile and an empty
discard history; the current player holds a red DrawTwo (id 92). -/
def cexC2 : Game :=
  { emptyGame with
    players := [1, 2], status := .Started,
    deck := [], deckIndex := 0, moves := [],
    topCard := 0, topCardId := 0, currentColor := 0,
    hands := fun a => if a = 1 then [92, 5] else if a = 2 then [6, 7] else [] }

/-- C2, counterexample: all conditions of the claim hold for `cexC2`
(Started game, current player, in-range index, `revealedCardId = 92 < 108`
playable on the current colour, `chosenColor ≤ 3`), yet the call does not
succeed: the DrawTwo effect forces two draws from an exhausted draw pile
whose discard history is too short to reshuffle, so the whole call
reverts with `No cards left to reshuffle`. -/
theorem C2_counterexample :
    cexC2.status = .Started ∧
    cexC2.players.getD cexC2.currentPlayerIndex 0 = 1 ∧
    (0 : Nat) < (cexC2.hands 1).length ∧
    (92 : Nat) < DECK_SIZE ∧
    isCardPlayableInternal 92 cexC2.topCardId cexC2.currentColor = true ∧
    (0 : Nat) ≤ 3 ∧
    commitMove (fun l => l) cexC2 1 0 92 0 = .error "No cards left to reshuffle" :=
  ⟨rfl, rfl, by decide, by decide, by decide, by decide, rfl⟩

/-- C2 (amended): `commitMove` validates move legality and updates the
public top card purely from the caller-supplied plaintext
`revealedCardId`, never comparing it with the encrypted card at
`cardIndex`.  Provided no forced draws are pending (true at every turn
start) and the draw pile holds at least the 4 cards a draw card could
force, every call by the current player with any in-range `cardIndex`,
any `revealedCardId < 108` playable on the top card, and any
`chosenColor ≤ 3` succeeds, removes the card at `cardIndex` (whatever its
actual value), and sets `topCardId` to `revealedCardId`. -/
theorem C2_reveal_not_checked (σ : List Nat → List Nat) (g : Game) (s : Address)
    (ci rid col : Nat)
    (hst : g.status = .Started)
    (hnodup : g.players.Nodup) (hn2 : 2 ≤ g.players.length)
    (hcpi : g.currentPlayerIndex < g.players.length)
    (hturn : g.players.getD g.currentPlayerIndex 0 = s)
    (hpend : g.pendingDraws = 0)
    (hdeck : g.deckIndex + 4 ≤ g.deck.length)
    (hci : ci < (g.hands s).length) (hcol : col ≤ 3) (hrid : rid < DECK_SIZE)
    (hplay : isCardPlayableInternal rid g.topCardId g.currentColor = true) :
    (commitMove σ g s ci rid col).map Game.topCardId = .ok rid ∧
    (commitMove σ g s ci rid col).map (fun h => h.hands s)
      = .ok ((g.hands s).eraseIdx ci) := by
  have hmem : s ∈ g.players := by
    rw [← hturn, List.getD_eq_getElem g.players 0 hcpi]
    exact List.getElem_mem hcpi
  rw [commitMove_unfold hst hmem hturn hcol hrid hci hplay]
  simp only []
  set hand := g.hands s with hh
  have herase := commitNewHand_eraseIdx hand ci hci
  set g2 := commitMoveCore { g with unoWindowOpen := false } s ci rid col with hg2
  have h_hands : g2.hands s = hand.eraseIdx ci := by
    rw [hg2, commitMoveCore_eq]
    simp only []
    rw [Function.update_same]
    show (if (g.hands s).length = 1 then []
          else removeCardFromHand (g.hands s) ci (g.hands s).length)
        = hand.eraseIdx ci
    rw [← hh]
    exact herase
  have h_top : g2.topCardId = rid := by
    rw [hg2, commitMoveCore_eq]
  have h_players : g2.players = g.players := by
    rw [hg2, commitMoveCore_eq]
  have h_cpieq : g2.currentPlayerIndex = g.currentPlayerIndex := by
    rw [hg2, commitMoveCore_eq]
  have h_deck : g2.deck = g.deck := by
    rw [hg2, commitMoveCore_eq]
  have h_deckIndex : g2.deckIndex = g.deckIndex := by
    rw [hg2, commitMoveCore_eq]
  have h_pending : g2.pendingDraws ≤ 4 := by
    rw [hg2, commitMoveCore_eq]
    simp only []
    split_ifs <;> omega
  by_cases h0 : (g2.hands s).length = 0
  · rw [if_pos h0]
    constructor
    · show Except.ok g2.topCardId = Except.ok rid
      rw [h_top]
    · show Except.ok (g2.hands s) = Except.ok (hand.eraseIdx ci)
      rw [h_hands]
  · rw [if_neg h0]
    obtain ⟨g', hg', htop, hhands⟩ := advance_frame (σ := σ) (g := g2) (s := s)
      (by rw [h_deck, h_deckIndex]; omega)
      (by rw [h_players, h_cpieq]; exact hcpi)
      (by rw [h_players]; exact hnodup)
      (by rw [h_players]; exact hn2)
      (by rw [h_players, h_cpieq]; exact hturn)
    rw [hg']
    constructor
    · show Except.ok g'.topCardId = Except.ok rid
      rw [htop, h_top]
    · show Except.ok (g'.hands s) = Except.ok (hand.eraseIdx ci)
      rw [hhands, h_hands]

theorem C2_reveal_not_checked_witness :
    (commitMove (fun l => l)
      { emptyGame with
        players := [1, 2], status := .Started,
        deck := [40, 41, 42, 43, 44], deckIndex := 0,
        moves := [2], topCard := 2, topCardId := 2, currentColor := 0,
        hands := fun a => if a = 1 then [50, 60] else if a = 2 then [6, 7] else [] }
      1 0 1 0).map Game.topCardId = .ok 1 ∧
    (commitMove (fun l => l)
      { emptyGame with
        players := [1, 2], status := .Started,
        deck := [40, 41, 42, 43, 44], deckIndex := 0,
        moves := [2], topCard := 2, topCardId := 2, currentColor := 0,
        hands := fun a => if a = 1 then [50, 60] else if a = 2 then [6, 7] else [] }
      1 0 1 0).map (fun h => h.hands 1) = .ok [60] := by
  have h := C2_reveal_not_checked (fun l => l)
    { emptyGame with
      players := [1, 2], status := .Started,
      deck := [40, 41, 42, 43, 44], deckIndex := 0,
      moves := [2], topCard := 2, topCardId := 2, currentColor := 0,
      hands := fun a => if a = 1 then [50, 60] else if a = 2 then [6, 7] else [] }
    1 0 1 0 rfl (by decide) (by decide) (by decide) (by decide) rfl
    (by decide) (by decide) (by decide) (by decide) (by decide)
  simpa using h

/-! ## Claim C3: declared-UNO flag resets -/

/-- One forced-draw iteration never touches the declared-UNO flags. -/
theorem drawOne_flags {σ : List Nat → List Nat} {g gm : Game} {p : Address}
    (h : drawOneInto σ g p = .ok gm) : gm.hasCalledUno = g.hasCalledUno := by
  unfold drawOneInto at h
  rcases Decidable.em (g.deckIndex ≥ g.deck.length) with hex | hex
  · rw [if_pos hex] at h
    cases hr : reshuffleFromDiscards σ g with
    | error e =>
      rw [hr] at h
      cases h
    | ok gr =>
      rw [hr] at h
      simp only [Except.bind, bind, Except.instMonad] at h
      cases h
      obtain ⟨_, hrec⟩ := reshuffle_ok hr
      rw [hrec]
  · rw [if_neg hex] at h
    simp only [Except.bind, bind, Except.instMonad] at h
    cases h
    rfl

/-- After `_forceDrawCards`, the drawer's declared-UNO flag is false. -/
theorem forceDraw_called_self {σ : List Nat → List Nat} :
    ∀ (n : Nat) {g gm : Game} {p : Address},
    forceDrawCards σ g p n = .ok gm → gm.hasCalledUno p = false
  | 0, g, gm, p, h => by
      unfold forceDrawCards at h
      cases h
      exact Function.update_same p false g.hasCalledUno
  | n + 1, g, gm, p, h => by
      unfold forceDrawCards at h
      cases h1 : drawOneInto σ g p with
      | error e =>
        rw [h1] at h
        cases h
      | ok g1 =>
        rw [h1] at h
        simp only [Except.bind, bind, Except.instMonad] at h
        exact forceDraw_called_self n h

/-- Forced draws `_forceDrawCards` never raise a declared-UNO flag. -/
theorem forceDraw_called_false {σ : List Nat → List Nat} :
    ∀ (n : Nat) {g gm : Game} {p q : Address},
    g.hasCalledUno q = false → forceDrawCards σ g p n = .ok gm →
    gm.hasCalledUno q = false
  | 0, g, gm, p, q, h0, h => by
      unfold forceDrawCards at h
      cases h
      show Function.update g.hasCalledUno p false q = false
      rcases Decidable.em (q = p) with rfl | hqp
      · exact Function.update_same q false g.hasCalledUno
      · rw [Function.update_noteq hqp]
        exact h0
  | n + 1, g, gm, p, q, h0, h => by
      unfold forceDrawCards at h
      cases h1 : drawOneInto σ g p with
      | error e =>
        rw [h1] at h
        cases h
      | ok g1 =>
        rw [h1] at h
        simp only [Except.bind, bind, Except.instMonad] at h
        have h1f : g1.hasCalledUno q = false := by
          rw [drawOne_flags h1]
          exact h0
        exact forceDraw_called_false n h1f h

/-- Turn advancement never raises a declared-UNO flag. -/
theorem advance_called_false {σ : List Nat → List Nat} {g g' : Game} {q : Address}
    (h0 : g.hasCalledUno q = false) (h : advanceToNextPlayer σ g = .ok g') :
    g'.hasCalledUno q = false := by
  unfold advanceToNextPlayer at h
  simp only [] at h
  split at h
  · rcases Decidable.em (g.pendingDraws > 0) with hpend | hpend
    · rw [if_pos (by simpa using hpend)] at h
      cases hf : forceDrawCards σ
          { g with
            currentPlayerIndex :=
              stepIndex g.currentPlayerIndex g.direction g.players.length,
            skipNextPlayer := false }
          (g.players.getD
            (stepIndex g.currentPlayerIndex g.direction g.players.length) 0)
          g.pendingDraws with
      | error e =>
        rw [hf] at h
        simp [Except.bind, bind, Except.instMonad, Except.map] at h
      | ok gm =>
        rw [hf] at h
        simp only [Except.bind, bind, Except.instMonad, Except.map] at h
        cases h
        have hgm : gm.hasCalledUno q = false :=
          forceDraw_called_false g.pendingDraws
            (g := { g with
              currentPlayerIndex :=
                stepIndex g.currentPlayerIndex g.direction g.players.length,
              skipNextPlayer := false })
            h0 hf
        exact hgm
    · rw [if_neg (by simpa using hpend)] at h
      simp only [Except.bind, bind, Except.instMonad] at h
      cases h
      exact h0
  · cases h
    exact h0

/-- A concrete Started game whose current player has declared UNO. -/
def cexC3 : Game :=
  { emptyGame with
    players := [1, 2], status := .Started,
    deck := [30, 31], deckIndex := 0, moves := [2],
    topCard := 2, topCardId := 2, currentColor := 0,
    hands := fun a => if a = 1 then [3, 4] else if a = 2 then [5, 6] else [],
    hasCalledUno := fun a => a == 1 }

/-- C3, counterexample: a successful voluntary `drawCard` leaves the
caller's declared-UNO flag untouched — here it stays `true` — refuting
the claim that completing a draw resets `hasCalledUno` to false. -/
theorem C3_counterexample :
    cexC3.hasCalledUno 1 = true ∧
    (drawCard (fun l => l) cexC3 1 false).map (fun h => h.hasCalledUno 1)
      = .ok true :=
  ⟨rfl, rfl⟩

/-- C3 (amended): a successful `commitMove` always resets the actor's
declared-UNO flag, and a successful `penalizeUno` resets the target's
flag (forced draws reset it), but a successful voluntary `drawCard`
with `endTurn = false` leaves every declared-UNO flag exactly as it
was. -/
theorem C3_uno_flag_reset :
    (∀ (σ : List Nat → List Nat) (g g' : Game) (s : Address) (ci rid col : Nat),
       commitMove σ g s ci rid col = .ok g' → g'.hasCalledUno s = false) ∧
    (∀ (σ : List Nat → List Nat) (g g' : Game) (s : Address),
       drawCard σ g s false = .ok g' → g'.hasCalledUno = g.hasCalledUno) ∧
    (∀ (σ : List Nat → List Nat) (g g' : Game) (c t : Address),
       penalizeUno σ g c t = .ok g' → g'.hasCalledUno t = false) := by
  refine ⟨?_, ?_, ?_⟩
  · intro σ g g' s ci rid col h
    unfold commitMove at h
    split at h
    · cases h
    split at h
    · cases h
    split at h
    · cases h
    split at h
    · cases h
    split at h
    · cases h
    rw [closeWindowCommit_eq] at h
    simp only [] at h
    split at h
    · cases h
    split at h
    · cases h
    set g2 := commitMoveCore { g with unoWindowOpen := false } s ci rid col
      with hg2
    have hflag : g2.hasCalledUno s = false := by
      rw [hg2, commitMoveCore_eq]
      simp only []
      simp
    split at h
    · cases h
      exact hflag
    · exact advance_called_false hflag h
  · intro σ g g' s h
    unfold drawCard at h
    split at h
    · cases h
    split at h
    · cases h
    split at h
    · cases h
    rcases Decidable.em (g.deckIndex ≥ g.deck.length) with hex | hex
    · rw [if_pos hex] at h
      obtain ⟨gm, hgm, htail⟩ := except_bind_ok h
      simp only [closeWindowDraw_eq] at htail
      simp only [Bool.false_eq_true, if_false] at htail
      cases htail
      obtain ⟨_, hrec⟩ := reshuffle_ok hgm
      rw [hrec]
    · rw [if_neg hex] at h
      obtain ⟨gm, hgm, htail⟩ := except_bind_ok h
      cases hgm
      simp only [closeWindowDraw_eq] at htail
      simp only [Bool.false_eq_true, if_false] at htail
      cases htail
      rfl
  · intro σ g g' c t h
    unfold penalizeUno at h
    split at h
    · cases h
    split at h
    · cases h
    split at h
    · cases h
    split at h
    · cases h
    split at h
    · cases h
    split at h
    · cases h
    simp only [] at h
    exact forceDraw_called_self 2 h

def cexC3d : Game := ((drawCard (fun l => l) cexC3 1 false).toOption).getD emptyGame

theorem C3_uno_flag_reset_witness :
    drawCard (fun l => l) cexC3 1 false = .ok cexC3d ∧
    cexC3d.hasCalledUno = cexC3.hasCalledUno := by
  have hd : drawCard (fun l => l) cexC3 1 false = .ok cexC3d := rfl
  exact ⟨hd, C3_uno_flag_reset.2.1 (fun l => l) cexC3 cexC3d 1 hd⟩

/-! ## Claim C4: the UNO challenge-window lifecycle -/

/-- C4: when the current player A, holding 2 cards and not having called
UNO, successfully plays (a number card, clean turn-start state, enough
deck for the penalty), the window opens with subject A; a subsequent
`penalizeUno` by B ≠ A succeeds, forces A to draw 2 (hand size 3),
closes the window and leaves `penaltyApplied` false; a further
`penalizeUno` on A then fails with the window-not-open error.
`penalizeUno` likewise fails without mutation when the challenger is the
target, when the window is closed, when the target is not the window's
subject, or when the penalty was already applied. -/
theorem C4_window_lifecycle :
    (∀ (σ : List Nat → List Nat) (g : Game) (A B : Address) (ci rid col : Nat),
      g.status = .Started → g.players.Nodup → 2 ≤ g.players.length →
      g.currentPlayerIndex < g.players.length →
      g.players.getD g.currentPlayerIndex 0 = A →
      B ∈ g.players → B ≠ A →
      (g.hands A).length = 2 → g.hasCalledUno A = false →
      g.skipNextPlayer = false → g.pendingDraws = 0 →
      getCardType rid = CARD_TYPE_NUMBER →
      g.deckIndex + 2 ≤ g.deck.length →
      ci < (g.hands A).length → col ≤ 3 → rid < DECK_SIZE →
      isCardPlayableInternal rid g.topCardId g.currentColor = true →
      ((commitMove σ g A ci rid col).map
          (fun h => (h.unoWindowOpen, h.unoWindowPlayer)) = .ok (true, A)) ∧
      ((commitMove σ g A ci rid col >>= fun h => penalizeUno σ h B A).map
          (fun k => ((k.hands A).length, k.unoWindowOpen, k.unoPenaltyApplied A))
        = .ok (3, false, false)) ∧
      ((commitMove σ g A ci rid col >>= fun h => penalizeUno σ h B A
          >>= fun k => penalizeUno σ k B A)
        = .error "Challenge window not open")) ∧
    (∀ (σ : List Nat → List Nat) (g0 : Game) (c : Address),
      g0.status = .Started → c ∈ g0.players →
      penalizeUno σ g0 c c = .error "Cannot penalize yourself") ∧
    (∀ (σ : List Nat → List Nat) (g0 : Game) (c t : Address),
      g0.status = .Started → c ∈ g0.players → c ≠ t →
      g0.unoWindowOpen = false →
      penalizeUno σ g0 c t = .error "Challenge window not open") ∧
    (∀ (σ : List Nat → List Nat) (g0 : Game) (c t : Address),
      g0.status = .Started → c ∈ g0.players → c ≠ t →
      g0.unoWindowOpen = true → g0.unoWindowPlayer ≠ t →
      penalizeUno σ g0 c t = .error "Target not in challenge window") ∧
    (∀ (σ : List Nat → List Nat) (g0 : Game) (c t : Address),
      g0.status = .Started → c ∈ g0.players → c ≠ t →
      g0.unoWindowOpen = true → g0.unoWindowPlayer = t →
      g0.unoPenaltyApplied t = true →
      penalizeUno σ g0 c t = .error "Penalty already applied") := by
  refine ⟨?_, ?_, ?_, ?_, ?_⟩
  · intro σ g A B ci rid col hst hnodup hn2 hcpi hturn hB hBA hlen hflag hskip
      hpend hctype hdeck hci hcol hrid hplay
    have hmem : A ∈ g.players := by
      rw [← hturn, List.getD_eq_getElem g.players 0 hcpi]
      exact List.getElem_mem hcpi
    rw [commitMove_unfold hst hmem hturn hcol hrid hci hplay]
    simp only []
    set g2 := commitMoveCore { g with unoWindowOpen := false } A ci rid col
      with hg2
    have hlen2 : ((g.hands A).eraseIdx ci).length = 1 := by
      rw [List.length_eraseIdx, hlen]
      rw [if_pos (show ci < 2 by omega)]
    have h_hands : g2.hands A = (g.hands A).eraseIdx ci := by
      rw [hg2, commitMoveCore_eq]
      simp only []
      rw [Function.update_same]
      show (if (g.hands A).length = 1 then []
            else removeCardFromHand (g.hands A) ci (g.hands A).length)
          = (g.hands A).eraseIdx ci
      exact commitNewHand_eraseIdx (g.hands A) ci hci
    have h_hlen : (g2.hands A).length = 1 := by
      rw [h_hands]
      exact hlen2
    have h_opened : g2.unoWindowOpen = true := by
      rw [hg2, commitMoveCore_eq]
      simp only []
      rw [if_pos ⟨hlen, by
        show (if (g.hands A).length = 1 then []
              else removeCardFromHand (g.hands A) ci (g.hands A).length).length = 1
        rw [commitNewHand_eraseIdx (g.hands A) ci hci]
        exact hlen2, by simp [hflag]⟩]
    have h_wp : g2.unoWindowPlayer = A := by
      rw [hg2, commitMoveCore_eq]
      simp only []
      rw [if_pos ⟨hlen, by
        show (if (g.hands A).length = 1 then []
              else removeCardFromHand (g.hands A) ci (g.hands A).length).length = 1
        rw [commitNewHand_eraseIdx (g.hands A) ci hci]
        exact hlen2, by simp [hflag]⟩]
    have h_skip2 : g2.skipNextPlayer = false := by
      rw [hg2, commitMoveCore_eq]
      simp only []
      rw [hctype]
      simp only [CARD_TYPE_NUMBER, CARD_TYPE_SKIP, CARD_TYPE_REVERSE,
        CARD_TYPE_DRAW_TWO, CARD_TYPE_WILD_DRAW_FOUR]
      rw [if_neg (by omega), if_neg (by simp), if_neg (by omega),
        if_neg (by omega)]
      exact hskip
    have h_status : g2.status = .Started := by
      rw [hg2, commitMoveCore_eq]
      simp only []
      exact hst
    have h_players : g2.players = g.players := by
      rw [hg2, commitMoveCore_eq]
    have h_deck : g2.deck = g.deck := by
      rw [hg2, commitMoveCore_eq]
    have h_deckIndex : g2.deckIndex = g.deckIndex := by
      rw [hg2, commitMoveCore_eq]
    have h_pen : g2.unoPenaltyApplied A = false := by
      rw [hg2, commitMoveCore_eq]
      simp only []
      simp
    rw [if_neg (by omega : ¬ (g2.hands A).length = 0)]
    rw [advance_noskip (σ := σ) h_skip2]
    set g3 : Game := { g2 with
      currentPlayerIndex :=
        stepIndex g2.currentPlayerIndex g2.direction g2.players.length }
      with hg3
    have hpz : penalizeUno σ g3 B A = (let g4 : Game := { g3 with
        unoWindowOpen := false,
        unoPenaltyApplied := Function.update g3.unoPenaltyApplied A true }
      forceDrawCards σ g4 A 2) := by
      unfold penalizeUno
      rw [if_neg (not_not_intro (show g3.status = .Started from h_status)),
        if_neg (not_not_intro (show B ∈ g3.players from by
          rw [show g3.players = g.players from h_players]
          exact hB)),
        if_neg hBA,
        if_neg (not_not_intro (show g3.unoWindowOpen = true from h_opened)),
        if_neg (not_not_intro (show g3.unoWindowPlayer = A from h_wp)),
        if_neg (by
          show ¬ g3.unoPenaltyApplied A = true
          rw [show g3.unoPenaltyApplied A = false from h_pen]
          simp)]
    obtain ⟨gm, hgm, out⟩ := forceDraw_eval (σ := σ)
      (g := { g3 with
        unoWindowOpen := false,
        unoPenaltyApplied := Function.update g3.unoPenaltyApplied A true })
      (p := A) 2
      (by
        show g2.deckIndex + 2 ≤ g2.deck.length
        rw [h_deck, h_deckIndex]
        exact hdeck)
    have hpz2 : penalizeUno σ g3 B A = .ok gm := by
      rw [hpz]
      exact hgm
    have hm_len : (gm.hands A).length = 3 := by
      rw [out.hand_len]
      show (g2.hands A).length + 2 = 3
      omega
    have hm_open : gm.unoWindowOpen = false := out.wopen
    have hm_pen : gm.unoPenaltyApplied A = false := out.pen
    refine ⟨?_, ?_, ?_⟩
    · show Except.ok (g3.unoWindowOpen, g3.unoWindowPlayer) = .ok (true, A)
      rw [show g3.unoWindowOpen = g2.unoWindowOpen from rfl,
        show g3.unoWindowPlayer = g2.unoWindowPlayer from rfl, h_opened, h_wp]
    · rw [show (Except.ok g3 >>= fun h => penalizeUno σ h B A)
          = penalizeUno σ g3 B A from rfl, hpz2]
      show Except.ok ((gm.hands A).length, gm.unoWindowOpen,
        gm.unoPenaltyApplied A) = .ok (3, false, false)
      rw [hm_len, hm_open, hm_pen]
    · rw [show (Except.ok g3 >>= fun h => penalizeUno σ h B A
            >>= fun k => penalizeUno σ k B A)
          = (penalizeUno σ g3 B A >>= fun k => penalizeUno σ k B A) from rfl,
        hpz2]
      show penalizeUno σ gm B A = .error "Challenge window not open"
      unfold penalizeUno
      rw [if_neg (not_not_intro (show gm.status = .Started from by
          rw [out.status]
          exact h_status)),
        if_neg (not_not_intro (show B ∈ gm.players from by
          rw [out.players]
          show B ∈ g2.players
          rw [h_players]
          exact hB)),
        if_neg hBA,
        if_pos (by
          rw [hm_open]
          simp)]
  · intro σ g0 c hst hmem
    unfold penalizeUno
    rw [if_neg (not_not_intro hst), if_neg (not_not_intro hmem), if_pos rfl]
  · intro σ g0 c t hst hmem hct hwin
    unfold penalizeUno
    rw [if_neg (not_not_intro hst), if_neg (not_not_intro hmem), if_neg hct,
      if_pos (by rw [hwin]; simp)]
  · intro σ g0 c t hst hmem hct hwin hwp
    unfold penalizeUno
    rw [if_neg (not_not_intro hst), if_neg (not_not_intro hmem), if_neg hct,
      if_neg (not_not_intro hwin), if_pos hwp]
  · intro σ g0 c t hst hmem hct hwin hwp hpen
    unfold penalizeUno
    rw [if_neg (not_not_intro hst), if_neg (not_not_intro hmem), if_neg hct,
      if_neg (not_not_intro hwin), if_neg (not_not_intro hwp), if_pos hpen]

def wC4 : Game :=
  { emptyGame with
    players := [10, 20], status := .Started,
    deck := [30, 31, 32, 33], deckIndex := 0, moves := [2],
    topCard := 2, topCardId := 2, currentColor := 0,
    hands := fun a => if a = 10 then [1, 3] else if a = 20 then [5, 6, 7] else [] }

theorem C4_window_lifecycle_witness :
    ((commitMove (fun l => l) wC4 10 0 1 0).map
        (fun h => (h.unoWindowOpen, h.unoWindowPlayer)) = .ok (true, 10)) ∧
    ((commitMove (fun l => l) wC4 10 0 1 0
        >>= fun h => penalizeUno (fun l => l) h 20 10).map
        (fun k => ((k.hands 10).length, k.unoWindowOpen, k.unoPenaltyApplied 10))
      = .ok (3, false, false)) ∧
    ((commitMove (fun l => l) wC4 10 0 1 0
        >>= fun h => penalizeUno (fun l => l) h 20 10
        >>= fun k => penalizeUno (fun l => l) k 20 10)
      = .error "Challenge window not open") :=
  C4_window_lifecycle.1 (fun l => l) wC4 10 20 0 1 0 rfl (by decide) (by decide)
    (by decide) (by decide) (by decide) (by decide) (by decide) rfl rfl rfl
    (by decide) (by decide) (by decide) (by decide) (by decide) (by decide)

/-! ## Claim C5: atomicity of rejected actions -/

/-- C5: every precondition violation of the public actions rejects the
call with its specific named error.  In this embedding an action is a
pure function returning `Except String Game`; an `error` result carries
no state, which is exactly Solidity's revert semantics: the caller's
game state — deck cursor, hands, discard, turn state, window state —
remains the pre-call value. -/
theorem C5_atomic_rejection :
    (∀ (creator tid : Nat) (d : List Nat), ¬ tid < DECK_SIZE →
       createGame creator tid d = .error "Invalid initial card ID") ∧
    (∀ (g : Game) (p : Address), g.status ≠ .NotStarted →
       joinGame g p = .error "Game is not in the required status") ∧
    (∀ (g : Game) (p : Address), g.status = .NotStarted →
       ¬ g.players.length < MAX_PLAYERS →
       joinGame g p = .error "Game is full") ∧
    (∀ (g : Game) (p : Address), g.status = .NotStarted →
       g.players.length < MAX_PLAYERS → p ∈ g.players →
       joinGame g p = .error "Already in game") ∧
    (∀ (g : Game) (p : Address), g.status = .NotStarted →
       g.players.length < MAX_PLAYERS → p ∉ g.players →
       ¬ g.deckIndex + INITIAL_HAND_SIZE < DECK_SIZE →
       joinGame g p = .error "Not enough cards") ∧
    (∀ g : Game, g.status ≠ .NotStarted →
       startGame g = .error "Game is not in the required status") ∧
    (∀ g : Game, g.status = .NotStarted → g.players.length < 2 →
       startGame g = .error "Need at least 2 players") ∧
    (∀ (σ : List Nat → List Nat) (g : Game) (s : Address) (ci rid col : Nat),
       g.status ≠ .Started →
       commitMove σ g s ci rid col = .error "Game is not in the required status") ∧
    (∀ (σ : List Nat → List Nat) (g : Game) (s : Address) (ci rid col : Nat),
       g.status = .Started → s ∉ g.players →
       commitMove σ g s ci rid col = .error "Not a player in this game") ∧
    (∀ (σ : List Nat → List Nat) (g : Game) (s : Address) (ci rid col : Nat),
       g.status = .Started → s ∈ g.players →
       g.players.getD g.currentPlayerIndex 0 ≠ s →
       commitMove σ g s ci rid col = .error "Not your turn") ∧
    (∀ (σ : List Nat → List Nat) (g : Game) (s : Address) (ci rid col : Nat),
       g.status = .Started → s ∈ g.players →
       g.players.getD g.currentPlayerIndex 0 = s → ¬ col ≤ 3 →
       commitMove σ g s ci rid col = .error "Invalid color") ∧
    (∀ (σ : List Nat → List Nat) (g : Game) (s : Address) (ci rid col : Nat),
       g.status = .Started → s ∈ g.players →
       g.players.getD g.currentPlayerIndex 0 = s → col ≤ 3 →
       ¬ rid < DECK_SIZE →
       commitMove σ g s ci rid col = .error "Invalid card ID") ∧
    (∀ (σ : List Nat → List Nat) (g : Game) (s : Address) (ci rid col : Nat),
       g.status = .Started → s ∈ g.players →
       g.players.getD g.currentPlayerIndex 0 = s → col ≤ 3 → rid < DECK_SIZE →
       ¬ ci < (g.hands s).length →
       commitMove σ g s ci rid col = .error "Card index out of bounds") ∧
    (∀ (σ : List Nat → List Nat) (g : Game) (s : Address) (ci rid col : Nat),
       g.status = .Started → s ∈ g.players →
       g.players.getD g.currentPlayerIndex 0 = s → col ≤ 3 → rid < DECK_SIZE →
       ci < (g.hands s).length →
       isCardPlayableInternal rid g.topCardId g.currentColor = false →
       commitMove σ g s ci rid col = .error "Card not playable") ∧
    (∀ (g : Game) (s : Address), g.status ≠ .Started →
       callUno g s = .error "Game is not in the required status") ∧
    (∀ (g : Game) (s : Address), g.status = .Started → s ∉ g.players →
       callUno g s = .error "Not a player in this game") ∧
    (∀ (g : Game) (s : Address), g.status = .Started → s ∈ g.players →
       (g.hands s).length ≠ 2 →
       callUno g s = .error "Must have exactly 2 cards to call UNO") ∧
    (∀ (σ : List Nat → List Nat) (g : Game) (s : Address) (et : Bool),
       g.status ≠ .Started →
       drawCard σ g s et = .error "Game is not in the required status") ∧
    (∀ (σ : List Nat → List Nat) (g : Game) (s : Address) (et : Bool),
       g.status = .Started → s ∉ g.players →
       drawCard σ g s et = .error "Not a player in this game") ∧
    (∀ (σ : List Nat → List Nat) (g : Game) (s : Address) (et : Bool),
       g.status = .Started → s ∈ g.players →
       g.players.getD g.currentPlayerIndex 0 ≠ s →
       drawCard σ g s et = .error "Not your turn") ∧
    (∀ (σ : List Nat → List Nat) (g : Game) (c t : Address),
       g.status ≠ .Started →
       penalizeUno σ g c t = .error "Game is not in the required status") ∧
    (∀ (σ : List Nat → List Nat) (g : Game) (c t : Address),
       g.status = .Started → c ∉ g.players →
       penalizeUno σ g c t = .error "Not a player in this game") ∧
    (∀ (σ : List Nat → List Nat) (g : Game) (c : Address),
       g.status = .Started → c ∈ g.players →
       penalizeUno σ g c c = .error "Cannot penalize yourself") ∧
    (∀ (σ : List Nat → List Nat) (g : Game) (c t : Address),
       g.status = .Started → c ∈ g.players → c ≠ t → g.unoWindowOpen = false →
       penalizeUno σ g c t = .error "Challenge window not open") ∧
    (∀ (σ : List Nat → List Nat) (g : Game) (c t : Address),
       g.status = .Started → c ∈ g.players → c ≠ t → g.unoWindowOpen = true →
       g.unoWindowPlayer ≠ t →
       penalizeUno σ g c t = .error "Target not in challenge window") ∧
    (∀ (σ : List Nat → List Nat) (g : Game) (c t : Address),
       g.status = .Started → c ∈ g.players → c ≠ t → g.unoWindowOpen = true →
       g.unoWindowPlayer = t → g.unoPenaltyApplied t = true →
       penalizeUno σ g c t = .error "Penalty already applied") := by
  refine ⟨?_, ?_, ?_, ?_, ?_, ?_, ?_, ?_, ?_, ?_, ?_, ?_, ?_, ?_, ?_, ?_, ?_,
    ?_, ?_, ?_, ?_, ?_, ?_, ?_, ?_, ?_⟩
  · intro creator tid d h
    unfold createGame
    rw [if_pos h]
  · intro g p h
    unfold joinGame
    rw [if_pos h]
  · intro g p h1 h2
    unfold joinGame
    rw [if_neg (not_not_intro h1), if_pos h2]
  · intro g p h1 h2 h3
    unfold joinGame
    rw [if_neg (not_not_intro h1), if_neg (not_not_intro h2), if_pos h3]
  · intro g p h1 h2 h3 h4
    unfold joinGame
    rw [if_neg (not_not_intro h1), if_neg (not_not_intro h2), if_neg h3,
      if_pos h4]
  · intro g h
    unfold startGame
    rw [if_pos h]
  · intro g h1 h2
    unfold startGame
    rw [if_neg (not_not_intro h1), if_pos (by omega)]
  · intro σ g s ci rid col h
    unfold commitMove
    rw [if_pos h]
  · intro σ g s ci rid col h1 h2
    unfold commitMove
    rw [if_neg (not_not_intro h1), if_pos h2]
  · intro σ g s ci rid col h1 h2 h3
    unfold commitMove
    rw [if_neg (not_not_intro h1), if_neg (not_not_intro h2), if_pos h3]
  · intro σ g s ci rid col h1 h2 h3 h4
    unfold commitMove
    rw [if_neg (not_not_intro h1), if_neg (not_not_intro h2),
      if_neg (not_not_intro h3), if_pos h4]
  · intro σ g s ci rid col h1 h2 h3 h4 h5
    unfold commitMove
    rw [if_neg (not_not_intro h1), if_neg (not_not_intro h2),
      if_neg (not_not_intro h3), if_neg (not_not_intro h4), if_pos h5]
  · intro σ g s ci rid col h1 h2 h3 h4 h5 h6
    unfold commitMove
    rw [if_neg (not_not_intro h1), if_neg (not_not_intro h2),
      if_neg (not_not_intro h3), if_neg (not_not_intro h4),
      if_neg (not_not_intro h5), closeWindowCommit_eq]
    simp only []
    split
    · rfl
    · next hcon => exact absurd (not_not.mp hcon) h6
  · intro σ g s ci rid col h1 h2 h3 h4 h5 h6 h7
    unfold commitMove
    rw [if_neg (not_not_intro h1), if_neg (not_not_intro h2),
      if_neg (not_not_intro h3), if_neg (not_not_intro h4),
      if_neg (not_not_intro h5), closeWindowCommit_eq]
    simp only []
    split
    · next hcon => exact absurd h6 hcon
    · split
      · rfl
      · next hcon =>
        have : isCardPlayableInternal rid g.topCardId g.currentColor = true :=
          not_not.mp hcon
        rw [h7] at this
        cases this
  · intro g s h
    unfold callUno
    rw [if_pos h]
  · intro g s h1 h2
    unfold callUno
    rw [if_neg (not_not_intro h1), if_pos h2]
  · intro g s h1 h2 h3
    unfold callUno
    rw [if_neg (not_not_intro h1), if_neg (not_not_intro h2), if_pos h3]
  · intro σ g s et h
    unfold drawCard
    rw [if_pos h]
  · intro σ g s et h1 h2
    unfold drawCard
    rw [if_neg (not_not_intro h1), if_pos h2]
  · intro σ g s et h1 h2 h3
    unfold drawCard
    rw [if_neg (not_not_intro h1), if_neg (not_not_intro h2), if_pos h3]
  · intro σ g c t h
    unfold penalizeUno
    rw [if_pos h]
  · intro σ g c t h1 h2
    unfold penalizeUno
    rw [if_neg (not_not_intro h1), if_pos h2]
  · intro σ g c h1 h2
    unfold penalizeUno
    rw [if_neg (not_not_intro h1), if_neg (not_not_intro h2), if_pos rfl]
  · intro σ g c t h1 h2 h3 h4
    unfold penalizeUno
    rw [if_neg (not_not_intro h1), if_neg (not_not_intro h2), if_neg h3,
      if_pos (by rw [h4]; simp)]
  · intro σ g c t h1 h2 h3 h4 h5
    unfold penalizeUno
    rw [if_neg (not_not_intro h1), if_neg (not_not_intro h2), if_neg h3,
      if_neg (not_not_intro h4), if_pos h5]
  · intro σ g c t h1 h2 h3 h4 h5 h6
    unfold penalizeUno
    rw [if_neg (not_not_intro h1), if_neg (not_not_intro h2), if_neg h3,
      if_neg (not_not_intro h4), if_neg (not_not_intro h5), if_pos h6]

theorem C5_atomic_rejection_witness :
    createGame 1 200 (List.range 108) = .error "Invalid initial card ID" ∧
    commitMove (fun l => l) cexC3 5 0 1 0 = .error "Not a player in this game" ∧
    commitMove (fun l => l) cexC3 2 0 1 0 = .error "Not your turn" ∧
    callUno { cexC3 with status := .Ended } 1
      = .error "Game is not in the required status" :=
  ⟨C5_atomic_rejection.1 1 200 (List.range 108) (by decide),
   C5_atomic_rejection.2.2.2.2.2.2.2.2.1 (fun l => l) cexC3 5 0 1 0 rfl
     (by decide),
   C5_atomic_rejection.2.2.2.2.2.2.2.2.2.1 (fun l => l) cexC3 2 0 1 0 rfl
     (by decide) (by decide),
   C5_atomic_rejection.2.2.2.2.2.2.2.2.2.2.2.2.2.2.1
     { cexC3 with status := .Ended } 1 (by decide)⟩

end BlindUno
